import Mathlib

/-!
A shallow embedding of the salon-management backend (`src/backend/models.py`,
`src/backend/routes.py`): JSON request values, the validation helpers, the
SQLite-backed store, and the request handlers, followed by theorems about the
claims of the specification.

Conventions of the embedding:
* JSON values carried in request bodies are modelled by `Val`.  The only JSON
  array shape the application touches is `portfolio_images`, a list of
  strings, so arrays are modelled as `Val.strs`.  Datetimes produced by the
  server (`datetime.utcnow()`) are abstract instants `Val.dt n`.
* Python truthiness (`if not data.get(field)`) is `Val.falsy`.
* Python's `re` semantics are translated for the two patterns in the source:
  character classes are ASCII (`\w` = letter, digit or underscore), `re.match`
  anchors at the start, and `$` matches at the end of the string or just
  before one final newline.
* `datetime.strptime` with formats `%Y-%m-%d` and `%H:%M:%S` is translated
  from CPython's `_strptime.py` regexes: `%Y` is exactly four digits, `%m` is
  `1[0-2]|0[1-9]|[1-9]`, `%d` is `3[01]|[12]\d|0[1-9]|[1-9]| [1-9]`, `%H` is
  `2[0-3]|[0-1]\d|\d`, `%M` is `[0-5]\d|\d`, `%S` is `6[0-1]|[0-5]\d|\d`,
  the whole input must be consumed, and the subsequent datetime construction
  additionally requires year at least 1, a day within the month, and seconds
  at most 59.  For these patterns alternatives sharing a first character are
  ordered longest first, so the leftmost regex match followed by the
  leftover-input check coincides with the first alternative completing a
  full-input match, which is how the parser below searches.
-/

namespace HairSalon

/-- JSON values as used by the application's request bodies and rows. -/
inductive Val where
  | null : Val
  | boolean : Bool → Val
  | num : Int → Val
  | str : String → Val
  | strs : List String → Val
  | dt : Nat → Val
deriving DecidableEq, Repr

/-- Python truthiness test on a JSON value (`if not v`). -/
def Val.falsy : Val → Bool
  | .null => true
  | .boolean b => !b
  | .num n => n = 0
  | .str s => s = ""
  | .strs l => l = []
  | .dt _ => false

/-- A parsed JSON request body: an association list of keys to values. -/
abbrev Input : Type := List (String × Val)

/-- First value bound to a key, if any (key membership, `k in data`). -/
def Input.lookup (d : Input) (k : String) : Option Val :=
  (List.find? (fun p => p.1 = k) d).map Prod.snd

/-- Python `data.get(k)`: the bound value, or `None` when the key is absent. -/
def Input.get0 (d : Input) (k : String) : Val :=
  match d.lookup k with
  | some v => v
  | none => Val.null

/-- Python `data.get(k, dflt)`: the bound value (even `None`), else `dflt`. -/
def Input.getD (d : Input) (k : String) (dflt : Val) : Val :=
  match d.lookup k with
  | some v => v
  | none => dflt

/-- Python `k in data`. -/
def Input.hasKey (d : Input) (k : String) : Bool :=
  (d.lookup k).isSome

/-! ### Validation helpers (`routes.py`, lines 12-40) -/

/-- `validate_required_fields(data, required_fields)`: the error message for
the first absent-or-falsy field, or `none` when all are present and truthy. -/
def validate_required_fields (data : Input) (required : List String) : Option String :=
  match required with
  | [] => none
  | f :: rest =>
      if (data.get0 f).falsy then some ("Missing required field: " ++ f)
      else validate_required_fields data rest

/-- ASCII reading of Python's regex class `\w`. -/
def isWordChar (c : Char) : Bool :=
  c.isAlpha || c.isDigit || c = '_'

/-- The regex class `[\w\.-]` of the email pattern. -/
def isLocalChar (c : Char) : Bool :=
  isWordChar c || c = '.' || c = '-'

/-- ASCII reading of Python's regex class `\s`. -/
def isSpaceChar (c : Char) : Bool :=
  c = ' ' || c = '\t' || c = '\n' || c = '\r' || c = '\x0b' || c = '\x0c'

/-- The regex class `[\d\-\s\(\)]` of the phone pattern. -/
def isPhoneChar (c : Char) : Bool :=
  c.isDigit || c = '-' || isSpaceChar c || c = '(' || c = ')'

/-- `$` without `re.MULTILINE`: end of input, or just before one final
newline. -/
def dollarEnd (cs : List Char) : Bool :=
  cs = [] || cs = ['\n']

/-- `p+` followed by a continuation: one or more characters satisfying `p`,
then the rest accepted by `k`.  Backtracking over the length of the `p+`
block reproduces the regex search. -/
def matchPlus (p : Char → Bool) (k : List Char → Bool) : List Char → Bool
  | [] => false
  | c :: cs => p c && (k cs || matchPlus p k cs)

/-- The email regex `^[\w\.-]+@[\w\.-]+\.\w+$` applied to a character list,
parametrised by the interpretation of the final anchor. -/
def emailRegexMatch (endp : List Char → Bool) (cs : List Char) : Bool :=
  matchPlus isLocalChar (fun r1 =>
    match r1 with
    | '@' :: r2 =>
        matchPlus isLocalChar (fun r3 =>
          match r3 with
          | '.' :: r4 => matchPlus isWordChar endp r4
          | _ => false) r2
    | _ => false) cs

/-- `validate_email_format(email)`: falsy values are valid; a string is
matched against the email regex; `re.match` on a truthy non-string raises
`TypeError`, modelled as `none`. -/
def validate_email_format (email : Val) : Option Bool :=
  if email.falsy then some true
  else
    match email with
    | .str s => some (emailRegexMatch dollarEnd s.data)
    | _ => none

/-- `validate_phone_format(phone)`: falsy values are valid; a string is
matched against `^[\d\-\s\(\)]+$`; a truthy non-string raises `TypeError`,
modelled as `none`. -/
def validate_phone_format (phone : Val) : Option Bool :=
  if phone.falsy then some true
  else
    match phone with
    | .str s => some (matchPlus isPhoneChar dollarEnd s.data)
    | _ => none

/-! ### `datetime.strptime` with `%Y-%m-%d` and `%H:%M:%S` -/

/-- The numeric value of an ASCII digit character, if it is one. -/
def charDigit (c : Char) : Option Nat :=
  if '0' ≤ c ∧ c ≤ '9' then some (c.toNat - 48) else none

/-- `%Y`: exactly four digits. -/
def yearMatch (cs : List Char) : Option (Nat × List Char) :=
  match cs with
  | a :: b :: c :: d :: rest =>
      match charDigit a, charDigit b, charDigit c, charDigit d with
      | some x1, some x2, some x3, some x4 =>
          some (x1 * 1000 + x2 * 100 + x3 * 10 + x4, rest)
      | _, _, _, _ => none
  | _ => none

/-- A regex alternative of the shape `x[a-b]`: literal first character, then
one character of a digit range, valued `base + digit`. -/
def litRangeAlt (x lo hi : Char) (base : Nat) (cs : List Char) : Option (Nat × List Char) :=
  match cs with
  | c1 :: c2 :: rest =>
      if c1 = x ∧ lo ≤ c2 ∧ c2 ≤ hi then some (base + (c2.toNat - 48), rest) else none
  | _ => none

/-- A regex alternative of the shape `[a-b]\d`: two digit characters, the
first from a range, valued as a two-digit number. -/
def rangeDigitAlt (lo hi : Char) (cs : List Char) : Option (Nat × List Char) :=
  match cs with
  | c1 :: c2 :: rest =>
      if (lo ≤ c1 ∧ c1 ≤ hi) ∧ ('0' ≤ c2 ∧ c2 ≤ '9') then
        some ((c1.toNat - 48) * 10 + (c2.toNat - 48), rest)
      else none
  | _ => none

/-- A regex alternative of the shape `[a-b]`: one character of a digit
range. -/
def singleAlt (lo hi : Char) (cs : List Char) : Option (Nat × List Char) :=
  match cs with
  | c :: rest => if lo ≤ c ∧ c ≤ hi then some (c.toNat - 48, rest) else none
  | _ => none

/-- `%m`: `1[0-2]|0[1-9]|[1-9]`, alternatives in regex order. -/
def monthAlts (cs : List Char) : List (Nat × List Char) :=
  (litRangeAlt '1' '0' '2' 10 cs).toList ++ (litRangeAlt '0' '1' '9' 0 cs).toList ++
    (singleAlt '1' '9' cs).toList

/-- `%d`: `3[01]|[12]\d|0[1-9]|[1-9]| [1-9]`, alternatives in regex order. -/
def dayAlts (cs : List Char) : List (Nat × List Char) :=
  (litRangeAlt '3' '0' '1' 30 cs).toList ++ (rangeDigitAlt '1' '2' cs).toList ++
    (litRangeAlt '0' '1' '9' 0 cs).toList ++ (singleAlt '1' '9' cs).toList ++
    (litRangeAlt ' ' '1' '9' 0 cs).toList

/-- `%H`: `2[0-3]|[0-1]\d|\d`, alternatives in regex order. -/
def hourAlts (cs : List Char) : List (Nat × List Char) :=
  (litRangeAlt '2' '0' '3' 20 cs).toList ++ (rangeDigitAlt '0' '1' cs).toList ++
    (singleAlt '0' '9' cs).toList

/-- `%M`: `[0-5]\d|\d`, alternatives in regex order. -/
def minuteAlts (cs : List Char) : List (Nat × List Char) :=
  (rangeDigitAlt '0' '5' cs).toList ++ (singleAlt '0' '9' cs).toList

/-- `%S`: `6[0-1]|[0-5]\d|\d`, alternatives in regex order. -/
def secondAlts (cs : List Char) : List (Nat × List Char) :=
  (litRangeAlt '6' '0' '1' 60 cs).toList ++ (rangeDigitAlt '0' '5' cs).toList ++
    (singleAlt '0' '9' cs).toList

/-- A parsed calendar date (`datetime.date`). -/
structure PyDate where
  year : Nat
  month : Nat
  day : Nat
deriving DecidableEq, Repr

/-- A parsed wall-clock time (`datetime.time`). -/
structure PyTime where
  hour : Nat
  minute : Nat
  second : Nat
deriving DecidableEq, Repr

/-- Leap-year rule of `datetime`. -/
def isLeapYear (y : Nat) : Bool :=
  y % 4 = 0 && (y % 100 ≠ 0 || y % 400 = 0)

/-- `days_in_month` of `datetime` (for months 1-12). -/
def daysInMonth (y m : Nat) : Nat :=
  if m = 2 then (if isLeapYear y then 29 else 28)
  else if m = 4 ∨ m = 6 ∨ m = 9 ∨ m = 11 then 30
  else 31

/-- The regex stage of `strptime(s, "%Y-%m-%d")`: first alternative chain
consuming the whole input. -/
def regexYMD (cs : List Char) : Option (Nat × Nat × Nat) :=
  match yearMatch cs with
  | some (y, r1) =>
      match r1 with
      | '-' :: r2 =>
          (monthAlts r2).findSome? (fun mr =>
            match mr.2 with
            | '-' :: r3 =>
                (dayAlts r3).findSome? (fun dr =>
                  if dr.2 = [] then some (y, mr.1, dr.1) else none)
            | _ => none)
      | _ => none
  | none => none

/-- The regex stage of `strptime(s, "%H:%M:%S")`. -/
def regexHMS (cs : List Char) : Option (Nat × Nat × Nat) :=
  (hourAlts cs).findSome? (fun hr =>
    match hr.2 with
    | ':' :: r2 =>
        (minuteAlts r2).findSome? (fun mr =>
          match mr.2 with
          | ':' :: r3 =>
              (secondAlts r3).findSome? (fun sr =>
                if sr.2 = [] then some (hr.1, mr.1, sr.1) else none)
          | _ => none)
    | _ => none)

/-- `datetime.strptime(s, "%Y-%m-%d").date()`: regex match of the whole
input, then datetime construction (year at least `MINYEAR`, day within the
month).  `none` is the raised `ValueError`. -/
def strptimeDate (s : String) : Option PyDate :=
  match regexYMD s.data with
  | some (y, m, d) =>
      if 1 ≤ y ∧ d ≤ daysInMonth y m then some ⟨y, m, d⟩ else none
  | none => none

/-- `datetime.strptime(s, "%H:%M:%S").time()`: regex match of the whole
input, then datetime construction (seconds at most 59 even though the regex
admits leap seconds 60 and 61). -/
def strptimeTime (s : String) : Option PyTime :=
  match regexHMS s.data with
  | some (h, m, sec) =>
      if sec ≤ 59 then some ⟨h, m, sec⟩ else none
  | none => none

/-! ### Rows, store, and serialization (`models.py`) -/

/-- A row of the `clients` table.  `created_at` holds the server instant the
row was created (the `datetime.utcnow` column default). -/
structure ClientRow where
  id : Nat
  name : Val
  phone : Val
  email : Val
  created_at : Nat
deriving DecidableEq, Repr

/-- A row of the `stylists` table. -/
structure StylistRow where
  id : Nat
  name : Val
  specialty : Val
  email : Val
  phone : Val
  portfolio_images : Val
deriving DecidableEq, Repr

/-- A row of the `services` table. -/
structure ServiceRow where
  id : Nat
  name : Val
  duration : Val
  price : Val
deriving DecidableEq, Repr

/-- A row of the `appointments` table.  `date` and `time` are the parsed
values produced by `strptime`. -/
structure AppointmentRow where
  id : Nat
  client_id : Val
  stylist_id : Val
  service_id : Val
  date : PyDate
  time : PyTime
  status : Val
deriving DecidableEq, Repr

/-- A row of the `invoices` table.  `appointment_id` carries the value
submitted at creation; the column has a UNIQUE constraint. -/
structure InvoiceRow where
  id : Nat
  appointment_id : Val
  total_amount : Val
  payment_method : Val
  paid_at : Nat
deriving DecidableEq, Repr

/-- The ASCII digit character of `n` (for `n` below 10). -/
def digitToChar (n : Nat) : Char := Char.ofNat (48 + n)

/-- A number rendered on exactly two digits. -/
def twoDigitChars (n : Nat) : List Char := [digitToChar (n / 10), digitToChar (n % 10)]

/-- A number rendered on exactly four digits. -/
def fourDigitChars (n : Nat) : List Char :=
  [digitToChar (n / 1000), digitToChar (n / 100 % 10), digitToChar (n / 10 % 10),
   digitToChar (n % 10)]

/-- `date.isoformat()`: the `YYYY-MM-DD` rendering. -/
def PyDate.isoformat (d : PyDate) : String :=
  String.mk (fourDigitChars d.year ++ '-' :: twoDigitChars d.month ++ '-' :: twoDigitChars d.day)

/-- `time.isoformat()`: the `HH:MM:SS` rendering. -/
def PyTime.isoformat (t : PyTime) : String :=
  String.mk (twoDigitChars t.hour ++ ':' :: twoDigitChars t.minute ++ ':' :: twoDigitChars t.second)

/-- `Client.to_json`. -/
def ClientRow.to_json (c : ClientRow) : List (String × Val) :=
  [("id", .num c.id), ("name", c.name), ("phone", c.phone), ("email", c.email),
   ("created_at", .dt c.created_at)]

/-- `Stylist.to_json`. -/
def StylistRow.to_json (s : StylistRow) : List (String × Val) :=
  [("id", .num s.id), ("name", s.name), ("specialty", s.specialty), ("email", s.email),
   ("phone", s.phone), ("portfolio_images", s.portfolio_images)]

/-- `Service.to_json`. -/
def ServiceRow.to_json (s : ServiceRow) : List (String × Val) :=
  [("id", .num s.id), ("name", s.name), ("duration", s.duration), ("price", s.price)]

/-- `Appointment.to_json`. -/
def AppointmentRow.to_json (a : AppointmentRow) : List (String × Val) :=
  [("id", .num a.id), ("client_id", a.client_id), ("stylist_id", a.stylist_id),
   ("service_id", a.service_id), ("date", .str a.date.isoformat),
   ("time", .str a.time.isoformat), ("status", a.status)]

/-- `Invoice.to_json`. -/
def InvoiceRow.to_json (i : InvoiceRow) : List (String × Val) :=
  [("id", .num i.id), ("appointment_id", i.appointment_id), ("total_amount", i.total_amount),
   ("payment_method", i.payment_method), ("paid_at", .dt i.paid_at)]

/-- The committed database: five tables plus their autoincrement counters. -/
structure Store where
  clients : List ClientRow
  stylists : List StylistRow
  services : List ServiceRow
  appointments : List AppointmentRow
  invoices : List InvoiceRow
  nextClientId : Nat
  nextStylistId : Nat
  nextServiceId : Nat
  nextAppointmentId : Nat
  nextInvoiceId : Nat
deriving DecidableEq, Repr

/-- The store with empty tables, as produced by `db.create_all()`. -/
def emptyStore : Store := ⟨[], [], [], [], [], 1, 1, 1, 1, 1⟩

/-- An HTTP response: status code and JSON body. -/
structure Resp where
  code : Nat
  body : List (String × Val)
deriving DecidableEq, Repr

/-- A JSON error response, `{"error": msg}`. -/
def errResp (code : Nat) (msg : String) : Resp := ⟨code, [("error", .str msg)]⟩

/-- The response a missing-ID lookup actually produces: `get_or_404` raises
`werkzeug.exceptions.NotFound` inside the `try` block, and since `NotFound`
subclasses `Exception`, the view's generic `except Exception` catches it,
rolls back, and returns HTTP 500 with `str(e)` — the stringified not-found
error.  The program never answers 404 on this path. -/
def notFoundCaught : Resp :=
  errResp 500 ("404 Not Found: The requested URL was not found on the server. " ++
    "If you entered the URL manually please check your spelling and try again.")

/-- A JSON confirmation response, `{"message": msg}`. -/
def msgResp (m : String) : Resp := ⟨200, [("message", .str m)]⟩

/-- The `str(e)` body of a `TypeError` escaping to the generic handler. -/
def typeErrorMsg : String := "TypeError: expected a string"

/-- Primary-key lookup on `clients` (`Client.query.get(i)`). -/
def findClient (st : Store) (i : Nat) : Option ClientRow :=
  st.clients.find? (fun c => c.id = i)

/-- Primary-key lookup on `stylists`. -/
def findStylist (st : Store) (i : Nat) : Option StylistRow :=
  st.stylists.find? (fun s => s.id = i)

/-- Primary-key lookup on `services`. -/
def findService (st : Store) (i : Nat) : Option ServiceRow :=
  st.services.find? (fun s => s.id = i)

/-- Primary-key lookup on `appointments`. -/
def findAppointment (st : Store) (i : Nat) : Option AppointmentRow :=
  st.appointments.find? (fun a => a.id = i)

/-- Primary-key lookup on `invoices`. -/
def findInvoice (st : Store) (i : Nat) : Option InvoiceRow :=
  st.invoices.find? (fun v => v.id = i)

/-- Committing a mutated client row back into its table. -/
def replaceClient (l : List ClientRow) (r : ClientRow) : List ClientRow :=
  l.map (fun c => if c.id = r.id then r else c)

/-- Committing a mutated stylist row back into its table. -/
def replaceStylist (l : List StylistRow) (r : StylistRow) : List StylistRow :=
  l.map (fun c => if c.id = r.id then r else c)

/-- Committing a mutated service row back into its table. -/
def replaceService (l : List ServiceRow) (r : ServiceRow) : List ServiceRow :=
  l.map (fun c => if c.id = r.id then r else c)

/-- Committing a mutated appointment row back into its table. -/
def replaceAppointment (l : List AppointmentRow) (r : AppointmentRow) : List AppointmentRow :=
  l.map (fun c => if c.id = r.id then r else c)

/-- Committing a mutated invoice row back into its table. -/
def replaceInvoice (l : List InvoiceRow) (r : InvoiceRow) : List InvoiceRow :=
  l.map (fun c => if c.id = r.id then r else c)

/-! ### Request handlers (`routes.py`)

Each handler is a function from the committed store (and the request input,
plus the server clock `now` where a `datetime.utcnow` default fires) to the
HTTP response and the committed store afterwards.  Early returns and raised
exceptions leave the store unchanged: nothing is committed on those paths,
and the session rollback (in the generic `except` and at request teardown)
discards any in-flight mutation.  Database constraints from `models.py`
that application input can actually violate are checked at the commit
points: `nullable=False` columns reachable with `None` through partial
updates, and the UNIQUE constraint on `invoices.appointment_id`.  On create
paths the required-field validation has already ruled out falsy (hence
`None`) values for every non-nullable column, so those commits cannot
fail. -/

/-- Committing a mutated client row: the `clients.name` column is
`nullable=False`, so a `None` name aborts the commit, the generic `except`
rolls back, and HTTP 500 is returned. -/
def clientCommit (st : Store) (updated : ClientRow) : Resp × Store :=
  if updated.name = Val.null then
    (errResp 500 "(sqlite3.IntegrityError) NOT NULL constraint failed: clients.name", st)
  else
    (⟨200, updated.to_json⟩, { st with clients := replaceClient st.clients updated })

/-- Committing a mutated stylist row (`stylists.name` is `nullable=False`). -/
def stylistCommit (st : Store) (updated : StylistRow) : Resp × Store :=
  if updated.name = Val.null then
    (errResp 500 "(sqlite3.IntegrityError) NOT NULL constraint failed: stylists.name", st)
  else
    (⟨200, updated.to_json⟩, { st with stylists := replaceStylist st.stylists updated })

/-- Committing a mutated service row (`services.name` is `nullable=False`). -/
def serviceCommit (st : Store) (updated : ServiceRow) : Resp × Store :=
  if updated.name = Val.null then
    (errResp 500 "(sqlite3.IntegrityError) NOT NULL constraint failed: services.name", st)
  else
    (⟨200, updated.to_json⟩, { st with services := replaceService st.services updated })

/-- Committing a mutated appointment row (`appointments.service_id` is
`nullable=False`; it is the only non-nullable column an update can set to
`None`). -/
def appointmentCommit (st : Store) (a3 : AppointmentRow) : Resp × Store :=
  if a3.service_id = Val.null then
    (errResp 500 "(sqlite3.IntegrityError) NOT NULL constraint failed: appointments.service_id", st)
  else
    (⟨200, a3.to_json⟩, { st with appointments := replaceAppointment st.appointments a3 })

/-- Committing a mutated invoice row (`invoices.total_amount` is
`nullable=False`). -/
def invoiceCommit (st : Store) (updated : InvoiceRow) : Resp × Store :=
  if updated.total_amount = Val.null then
    (errResp 500 "(sqlite3.IntegrityError) NOT NULL constraint failed: invoices.total_amount", st)
  else
    (⟨200, updated.to_json⟩, { st with invoices := replaceInvoice st.invoices updated })

/-- `POST /clients` (`create_client`). -/
def create_client (st : Store) (data : Input) (now : Nat) : Resp × Store :=
  match validate_required_fields data ["name", "phone", "email"] with
  | some msg => (errResp 400 msg, st)
  | none =>
      match validate_email_format (data.get0 "email") with
      | none => (errResp 500 typeErrorMsg, st)
      | some false => (errResp 400 "Invalid email format", st)
      | some true =>
          match validate_phone_format (data.get0 "phone") with
          | none => (errResp 500 typeErrorMsg, st)
          | some false => (errResp 400 "Invalid phone format", st)
          | some true =>
              let row : ClientRow :=
                ⟨st.nextClientId, data.get0 "name", data.get0 "phone", data.get0 "email", now⟩
              (⟨201, row.to_json⟩,
               { st with clients := st.clients ++ [row], nextClientId := st.nextClientId + 1 })

/-- `PUT /clients/<id>` (`update_client`). -/
def update_client (st : Store) (i : Nat) (data : Input) : Resp × Store :=
  match findClient st i with
  | none => (notFoundCaught, st)
  | some client =>
      match (if data.hasKey "email" then validate_email_format (data.get0 "email") else some true) with
      | none => (errResp 500 typeErrorMsg, st)
      | some false => (errResp 400 "Invalid email format", st)
      | some true =>
          match (if data.hasKey "phone" then validate_phone_format (data.get0 "phone") else some true) with
          | none => (errResp 500 typeErrorMsg, st)
          | some false => (errResp 400 "Invalid phone format", st)
          | some true =>
              clientCommit st
                { client with
                    name := data.getD "name" client.name,
                    phone := data.getD "phone" client.phone,
                    email := data.getD "email" client.email }

/-- `DELETE /clients/<id>` (`delete_client`). -/
def delete_client (st : Store) (i : Nat) : Resp × Store :=
  match findClient st i with
  | none => (notFoundCaught, st)
  | some _ =>
      (msgResp "Client deleted successfully",
       { st with clients := st.clients.filter (fun c => c.id != i) })

/-- `POST /stylists` (`create_stylist`). -/
def create_stylist (st : Store) (data : Input) : Resp × Store :=
  match validate_required_fields data ["name", "specialty", "email", "phone"] with
  | some msg => (errResp 400 msg, st)
  | none =>
      match validate_email_format (data.get0 "email") with
      | none => (errResp 500 typeErrorMsg, st)
      | some false => (errResp 400 "Invalid email format", st)
      | some true =>
          match validate_phone_format (data.get0 "phone") with
          | none => (errResp 500 typeErrorMsg, st)
          | some false => (errResp 400 "Invalid phone format", st)
          | some true =>
              let row : StylistRow :=
                ⟨st.nextStylistId, data.get0 "name", data.get0 "specialty", data.get0 "email",
                 data.get0 "phone", data.getD "portfolio_images" (Val.strs [])⟩
              (⟨201, row.to_json⟩,
               { st with stylists := st.stylists ++ [row], nextStylistId := st.nextStylistId + 1 })

/-- `PUT /stylists/<id>` (`update_stylist`). -/
def update_stylist (st : Store) (i : Nat) (data : Input) : Resp × Store :=
  match findStylist st i with
  | none => (notFoundCaught, st)
  | some stylist =>
      match (if data.hasKey "email" then validate_email_format (data.get0 "email") else some true) with
      | none => (errResp 500 typeErrorMsg, st)
      | some false => (errResp 400 "Invalid email format", st)
      | some true =>
          match (if data.hasKey "phone" then validate_phone_format (data.get0 "phone") else some true) with
          | none => (errResp 500 typeErrorMsg, st)
          | some false => (errResp 400 "Invalid phone format", st)
          | some true =>
              stylistCommit st
                { stylist with
                    name := data.getD "name" stylist.name,
                    specialty := data.getD "specialty" stylist.specialty,
                    email := data.getD "email" stylist.email,
                    phone := data.getD "phone" stylist.phone,
                    portfolio_images := data.getD "portfolio_images" stylist.portfolio_images }

/-- `DELETE /stylists/<id>` (`delete_stylist`). -/
def delete_stylist (st : Store) (i : Nat) : Resp × Store :=
  match findStylist st i with
  | none => (notFoundCaught, st)
  | some _ =>
      (msgResp "Stylist deleted successfully",
       { st with stylists := st.stylists.filter (fun c => c.id != i) })

/-- `POST /services` (`create_service`). -/
def create_service (st : Store) (data : Input) : Resp × Store :=
  match validate_required_fields data ["name", "duration", "price"] with
  | some msg => (errResp 400 msg, st)
  | none =>
      let row : ServiceRow :=
        ⟨st.nextServiceId, data.get0 "name", data.get0 "duration", data.get0 "price"⟩
      (⟨201, row.to_json⟩,
       { st with services := st.services ++ [row], nextServiceId := st.nextServiceId + 1 })

/-- `PUT /services/<id>` (`update_service`). -/
def update_service (st : Store) (i : Nat) (data : Input) : Resp × Store :=
  match findService st i with
  | none => (notFoundCaught, st)
  | some service =>
      serviceCommit st
        { service with
            name := data.getD "name" service.name,
            duration := data.getD "duration" service.duration,
            price := data.getD "price" service.price }

/-- `DELETE /services/<id>` (`delete_service`). -/
def delete_service (st : Store) (i : Nat) : Resp × Store :=
  match findService st i with
  | none => (notFoundCaught, st)
  | some _ =>
      (msgResp "Service deleted successfully",
       { st with services := st.services.filter (fun c => c.id != i) })

/-- `POST /appointments` (`create_appointment`). -/
def create_appointment (st : Store) (data : Input) : Resp × Store :=
  match validate_required_fields data ["client_id", "stylist_id", "service_id", "date", "time"] with
  | some msg => (errResp 400 msg, st)
  | none =>
      match data.get0 "date" with
      | .str ds =>
          match strptimeDate ds with
          | none => (errResp 400 "Invalid date format. Use YYYY-MM-DD", st)
          | some d =>
              match data.get0 "time" with
              | .str ts =>
                  match strptimeTime ts with
                  | none => (errResp 400 "Invalid time format. Use HH:MM:SS", st)
                  | some t =>
                      let row : AppointmentRow :=
                        ⟨st.nextAppointmentId, data.get0 "client_id", data.get0 "stylist_id",
                         data.get0 "service_id", d, t, data.getD "status" (Val.str "booked")⟩
                      (⟨201, row.to_json⟩,
                       { st with appointments := st.appointments ++ [row],
                                 nextAppointmentId := st.nextAppointmentId + 1 })
              | _ => (errResp 500 typeErrorMsg, st)
      | _ => (errResp 500 typeErrorMsg, st)

/-- The `if "date" in data` block of `update_appointment`: parse and apply
the new date, or fail. -/
def applyDateField (data : Input) (a : AppointmentRow) : Except Resp AppointmentRow :=
  if data.hasKey "date" then
    match data.get0 "date" with
    | .str s =>
        match strptimeDate s with
        | some d => .ok { a with date := d }
        | none => .error (errResp 400 "Invalid date format. Use YYYY-MM-DD")
    | _ => .error (errResp 500 typeErrorMsg)
  else .ok a

/-- The `if "time" in data` block of `update_appointment`. -/
def applyTimeField (data : Input) (a : AppointmentRow) : Except Resp AppointmentRow :=
  if data.hasKey "time" then
    match data.get0 "time" with
    | .str s =>
        match strptimeTime s with
        | some t => .ok { a with time := t }
        | none => .error (errResp 400 "Invalid time format. Use HH:MM:SS")
    | _ => .error (errResp 500 typeErrorMsg)
  else .ok a

/-- `PUT /appointments/<id>` (`update_appointment`). -/
def update_appointment (st : Store) (i : Nat) (data : Input) : Resp × Store :=
  match findAppointment st i with
  | none => (notFoundCaught, st)
  | some appointment =>
      match applyDateField data appointment with
      | .error r => (r, st)
      | .ok a1 =>
          match applyTimeField data a1 with
          | .error r => (r, st)
          | .ok a2 =>
              appointmentCommit st
                { a2 with
                    status := data.getD "status" a2.status,
                    service_id := data.getD "service_id" a2.service_id }

/-- `DELETE /appointments/<id>` (`delete_appointment`). -/
def delete_appointment (st : Store) (i : Nat) : Resp × Store :=
  match findAppointment st i with
  | none => (notFoundCaught, st)
  | some _ =>
      (msgResp "Appointment deleted successfully",
       { st with appointments := st.appointments.filter (fun c => c.id != i) })

/-- `POST /invoices` (`create_invoice`).  The handler performs no duplicate
check; the UNIQUE constraint on `invoices.appointment_id` fires at commit,
the generic `except` rolls back, and the error surfaces as HTTP 500. -/
def create_invoice (st : Store) (data : Input) (now : Nat) : Resp × Store :=
  match validate_required_fields data ["appointment_id", "total_amount", "payment_method"] with
  | some msg => (errResp 400 msg, st)
  | none =>
      if st.invoices.any (fun v => v.appointment_id = data.get0 "appointment_id") then
        (errResp 500 "(sqlite3.IntegrityError) UNIQUE constraint failed: invoices.appointment_id", st)
      else
        let row : InvoiceRow :=
          ⟨st.nextInvoiceId, data.get0 "appointment_id", data.get0 "total_amount",
           data.get0 "payment_method", now⟩
        (⟨201, row.to_json⟩,
         { st with invoices := st.invoices ++ [row], nextInvoiceId := st.nextInvoiceId + 1 })

/-- `PUT /invoices/<id>` (`update_invoice`). -/
def update_invoice (st : Store) (i : Nat) (data : Input) : Resp × Store :=
  match findInvoice st i with
  | none => (notFoundCaught, st)
  | some invoice =>
      invoiceCommit st
        { invoice with
            total_amount := data.getD "total_amount" invoice.total_amount,
            payment_method := data.getD "payment_method" invoice.payment_method }

/-- `DELETE /invoices/<id>` (`delete_invoice`). -/
def delete_invoice (st : Store) (i : Nat) : Resp × Store :=
  match findInvoice st i with
  | none => (notFoundCaught, st)
  | some _ =>
      (msgResp "Invoice deleted successfully",
       { st with invoices := st.invoices.filter (fun c => c.id != i) })

/-! ### Shared lemmas -/

/-- Character order is the order of code points. -/
theorem char_le_iff {a b : Char} : a ≤ b ↔ a.toNat ≤ b.toNat :=
  ⟨fun h => h, fun h => h⟩

/-- `Char.ofNat` inverts `Char.toNat` below the surrogate range. -/
theorem charOfNat_toNat {c : Char} (h : c.toNat < 55296) : Char.ofNat c.toNat = c := by
  have hv : Nat.isValidChar c.toNat := Or.inl h
  unfold Char.ofNat
  rw [dif_pos hv]
  unfold Char.ofNatAux
  apply Char.eq_of_val_eq
  apply UInt32.eq_of_toBitVec_eq
  apply BitVec.eq_of_toNat_eq
  simp [BitVec.toNat_ofNatLt]
  rfl

/-- Replacing a row never changes the `id` of any list position. -/
theorem replace_id_eq {α : Type} [DecidableEq α] (idf : α → Nat) (c r : α) :
    idf (if idf c = idf r then r else c) = idf c := by
  split
  · omega
  · rfl

/-- `find?` by id commutes with an id-preserving map. -/
theorem find_replace_generic {α : Type} (idf : α → Nat) (g : α → α)
    (hg : ∀ c, idf (g c) = idf c) (l : List α) (j : Nat) :
    (l.map g).find? (fun c => idf c = j) = (l.find? (fun c => idf c = j)).map g := by
  induction l with
  | nil => rfl
  | cons a t ih =>
      by_cases h : idf a = j
      · rw [List.map_cons, List.find?_cons_of_pos _ (by simp [hg, h]),
          List.find?_cons_of_pos _ (by simp [h])]
        rfl
      · rw [List.map_cons, List.find?_cons_of_neg _ (by simp [hg, h]),
          List.find?_cons_of_neg _ (by simp [h]), ih]

/-- `find?` by id commutes with the map performed by `replaceClient`. -/
theorem findClient_replace (l : List ClientRow) (r : ClientRow) (j : Nat) :
    (replaceClient l r).find? (fun c => c.id = j) =
      (l.find? (fun c => c.id = j)).map (fun c => if c.id = r.id then r else c) :=
  find_replace_generic ClientRow.id _ (fun c => by split <;> omega) l j

/-- `find?` by id commutes with the map performed by `replaceStylist`. -/
theorem findStylist_replace (l : List StylistRow) (r : StylistRow) (j : Nat) :
    (replaceStylist l r).find? (fun c => c.id = j) =
      (l.find? (fun c => c.id = j)).map (fun c => if c.id = r.id then r else c) :=
  find_replace_generic StylistRow.id _ (fun c => by split <;> omega) l j

/-- `find?` by id commutes with the map performed by `replaceAppointment`. -/
theorem findAppointment_replace (l : List AppointmentRow) (r : AppointmentRow) (j : Nat) :
    (replaceAppointment l r).find? (fun c => c.id = j) =
      (l.find? (fun c => c.id = j)).map (fun c => if c.id = r.id then r else c) :=
  find_replace_generic AppointmentRow.id _ (fun c => by split <;> omega) l j

/-- `find?` by id commutes with the map performed by `replaceInvoice`. -/
theorem findInvoice_replace (l : List InvoiceRow) (r : InvoiceRow) (j : Nat) :
    (replaceInvoice l r).find? (fun c => c.id = j) =
      (l.find? (fun c => c.id = j)).map (fun c => if c.id = r.id then r else c) :=
  find_replace_generic InvoiceRow.id _ (fun c => by split <;> omega) l j

/-- `applyDateField` can only change the `date` field. -/
theorem applyDateField_ok {d : Input} {a b : AppointmentRow}
    (h : applyDateField d a = .ok b) :
    b.id = a.id ∧ b.client_id = a.client_id ∧ b.stylist_id = a.stylist_id ∧
      b.service_id = a.service_id ∧ b.time = a.time ∧ b.status = a.status := by
  unfold applyDateField at h
  repeat' split at h
  all_goals cases h
  all_goals exact ⟨rfl, rfl, rfl, rfl, rfl, rfl⟩

/-- `applyTimeField` can only change the `time` field. -/
theorem applyTimeField_ok {d : Input} {a b : AppointmentRow}
    (h : applyTimeField d a = .ok b) :
    b.id = a.id ∧ b.client_id = a.client_id ∧ b.stylist_id = a.stylist_id ∧
      b.service_id = a.service_id ∧ b.date = a.date ∧ b.status = a.status := by
  unfold applyTimeField at h
  repeat' split at h
  all_goals cases h
  all_goals exact ⟨rfl, rfl, rfl, rfl, rfl, rfl⟩

/-! ### Concrete fixtures used by witnesses -/

/-- A concrete client row. -/
def wClient : ClientRow := ⟨1, .str "Ann", .str "555-1111", .str "ann@x.com", 100⟩

/-- A concrete stylist row. -/
def wStylist : StylistRow := ⟨1, .str "Bo", .str "Color", .str "bo@x.com", .str "555-2222", .strs []⟩

/-- A concrete service row. -/
def wService : ServiceRow := ⟨1, .str "Cut", .num 30, .num 40⟩

/-- A concrete appointment row. -/
def wAppointment : AppointmentRow :=
  ⟨1, .num 1, .num 1, .num 1, ⟨2024, 6, 1⟩, ⟨10, 0, 0⟩, .str "booked"⟩

/-- A concrete invoice row. -/
def wInvoice : InvoiceRow := ⟨1, .num 1, .num 40, .str "card", 200⟩

/-- A concrete populated store holding one row of each entity. -/
def wStore : Store := ⟨[wClient], [wStylist], [wService], [wAppointment], [wInvoice], 2, 2, 2, 2, 2⟩

/-! ### C1 -/

/-- C1 (code bug): the specified HTTP 404 for a missing path ID never
happens.  In every Update and Delete handler, `get_or_404` raises inside the
`try` block and the view's generic `except Exception` catches the
`NotFound`, rolls back, and answers HTTP 500 carrying the stringified
not-found error.  The store is left unchanged as the claim says, but the
status code diverges from the claimed 404 on every such request. -/
theorem C1_missing_id_caught_as_500 :
    notFoundCaught.code = 500 ∧ notFoundCaught.code ≠ 404 ∧
    (∀ st i d, findClient st i = none → update_client st i d = (notFoundCaught, st)) ∧
    (∀ st i, findClient st i = none → delete_client st i = (notFoundCaught, st)) ∧
    (∀ st i d, findStylist st i = none → update_stylist st i d = (notFoundCaught, st)) ∧
    (∀ st i, findStylist st i = none → delete_stylist st i = (notFoundCaught, st)) ∧
    (∀ st i d, findService st i = none → update_service st i d = (notFoundCaught, st)) ∧
    (∀ st i, findService st i = none → delete_service st i = (notFoundCaught, st)) ∧
    (∀ st i d, findAppointment st i = none → update_appointment st i d = (notFoundCaught, st)) ∧
    (∀ st i, findAppointment st i = none → delete_appointment st i = (notFoundCaught, st)) ∧
    (∀ st i d, findInvoice st i = none → update_invoice st i d = (notFoundCaught, st)) ∧
    (∀ st i, findInvoice st i = none → delete_invoice st i = (notFoundCaught, st)) := by
  refine ⟨rfl, by decide, fun st i d h => ?_, fun st i h => ?_, fun st i d h => ?_,
    fun st i h => ?_, fun st i d h => ?_, fun st i h => ?_, fun st i d h => ?_,
    fun st i h => ?_, fun st i d h => ?_, fun st i h => ?_⟩ <;>
  simp [update_client, delete_client, update_stylist, delete_stylist, update_service,
    delete_service, update_appointment, delete_appointment, update_invoice, delete_invoice, h]

/-- C1 witness: the empty store has no row with ID 1 in any table, and each
update/delete handler answers with the caught-NotFound 500 response, leaving
the store unchanged. -/
theorem C1_missing_id_caught_as_500_witness :
    notFoundCaught.code = 500 ∧
    (findClient emptyStore 1 = none ∧
      update_client emptyStore 1 [] = (notFoundCaught, emptyStore) ∧
      delete_client emptyStore 1 = (notFoundCaught, emptyStore)) ∧
    (findStylist emptyStore 1 = none ∧
      update_stylist emptyStore 1 [] = (notFoundCaught, emptyStore) ∧
      delete_stylist emptyStore 1 = (notFoundCaught, emptyStore)) ∧
    (findService emptyStore 1 = none ∧
      update_service emptyStore 1 [] = (notFoundCaught, emptyStore) ∧
      delete_service emptyStore 1 = (notFoundCaught, emptyStore)) ∧
    (findAppointment emptyStore 1 = none ∧
      update_appointment emptyStore 1 [] = (notFoundCaught, emptyStore) ∧
      delete_appointment emptyStore 1 = (notFoundCaught, emptyStore)) ∧
    (findInvoice emptyStore 1 = none ∧
      update_invoice emptyStore 1 [] = (notFoundCaught, emptyStore) ∧
      delete_invoice emptyStore 1 = (notFoundCaught, emptyStore)) := by
  obtain ⟨h0, -, h1, h2, h3, h4, h5, h6, h7, h8, h9, h10⟩ := C1_missing_id_caught_as_500
  exact ⟨h0, ⟨rfl, h1 emptyStore 1 [] rfl, h2 emptyStore 1 rfl⟩,
    ⟨rfl, h3 emptyStore 1 [] rfl, h4 emptyStore 1 rfl⟩,
    ⟨rfl, h5 emptyStore 1 [] rfl, h6 emptyStore 1 rfl⟩,
    ⟨rfl, h7 emptyStore 1 [] rfl, h8 emptyStore 1 rfl⟩,
    ⟨rfl, h9 emptyStore 1 [] rfl, h10 emptyStore 1 rfl⟩⟩

/-! ### C2 -/

/-- C2: an Appointment update that fails validation (HTTP 400) leaves the
committed store completely unchanged; in particular, with a valid date and a
malformed time in the same input, the response is exactly the time-format
validation error and the store — including the date written into the
in-flight row before the failing time check — is untouched. -/
theorem C2_update_validation_error_leaves_store :
    (∀ st i d r st', update_appointment st i d = (r, st') → r.code = 400 → st' = st) ∧
    (∀ st i d a ds ts,
        findAppointment st i = some a →
        Input.lookup d "date" = some (Val.str ds) → (strptimeDate ds).isSome = true →
        Input.lookup d "time" = some (Val.str ts) → strptimeTime ts = none →
        update_appointment st i d = (errResp 400 "Invalid time format. Use HH:MM:SS", st)) := by
  constructor
  · intro st i d r st' h hcode
    unfold update_appointment appointmentCommit at h
    repeat' split at h
    all_goals cases h
    all_goals first
      | rfl
      | simp [errResp] at hcode
  · intro st i d a ds ts hfind hld hpd hlt hpt
    obtain ⟨pd, hpd'⟩ : ∃ x, strptimeDate ds = some x := by
      cases hsd : strptimeDate ds
      · rw [hsd] at hpd; cases hpd
      · exact ⟨_, rfl⟩
    have hdate : applyDateField d a = .ok { a with date := pd } := by
      unfold applyDateField
      simp [Input.hasKey, Input.get0, hld, hpd']
    have htime : applyTimeField d { a with date := pd } =
        .error (errResp 400 "Invalid time format. Use HH:MM:SS") := by
      unfold applyTimeField
      simp [Input.hasKey, Input.get0, hlt, hpt]
    simp only [update_appointment, hfind, hdate, htime]

/-- C2 witness: on the populated store, updating appointment 1 with a valid
date and the malformed time string returns the time validation error and
leaves the store unchanged. -/
theorem C2_update_validation_error_leaves_store_witness :
    update_appointment wStore 1 [("date", Val.str "2024-07-02"), ("time", Val.str "2:30 PM")] =
      (errResp 400 "Invalid time format. Use HH:MM:SS", wStore) :=
  C2_update_validation_error_leaves_store.2 wStore 1
    [("date", Val.str "2024-07-02"), ("time", Val.str "2:30 PM")] wAppointment
    "2024-07-02" "2:30 PM" (by decide) (by decide) (by decide) (by decide) (by decide)

/-! ### C9 -/

/-- C9: the Appointment update handler never changes `client_id` or
`stylist_id` (nor `id`), whatever keys the input carries: only date, time,
status and service_id are written. -/
theorem C9_update_appointment_preserves_references :
    ∀ st i d j,
      ((findAppointment (update_appointment st i d).2 j).map AppointmentRow.client_id =
        (findAppointment st j).map AppointmentRow.client_id) ∧
      ((findAppointment (update_appointment st i d).2 j).map AppointmentRow.stylist_id =
        (findAppointment st j).map AppointmentRow.stylist_id) := by
  intro st i d j
  cases hfind : findAppointment st i with
  | none => simp [update_appointment, hfind]
  | some a =>
      cases hdf : applyDateField d a with
      | error r => simp [update_appointment, hfind, hdf]
      | ok a1 =>
          cases htf : applyTimeField d a1 with
          | error r => simp [update_appointment, hfind, hdf, htf]
          | ok a2 =>
              simp only [update_appointment, hfind, hdf, htf, appointmentCommit]
              split
              · exact ⟨rfl, rfl⟩
              · obtain ⟨hid1, hc1, hs1, _, _, _⟩ := applyDateField_ok hdf
                obtain ⟨hid2, hc2, hs2, _, _, _⟩ := applyTimeField_ok htf
                have hfa : a.id = i := by
                  have := List.find?_some hfind
                  simpa using this
                constructor <;>
                · show Option.map _ (findAppointment _ j) = _
                  unfold findAppointment
                  simp only [findAppointment_replace]
                  cases hj : List.find? (fun c => c.id = j) st.appointments with
                  | none => rfl
                  | some c0 =>
                      simp only [Option.map_map, Option.map_some]
                      have hc0 : c0.id = j := by
                        have := List.find?_some hj
                        simpa using this
                      by_cases hce : c0.id = ({ a2 with
                          status := d.getD "status" a2.status,
                          service_id := d.getD "service_id" a2.service_id } : AppointmentRow).id
                      · have hji : j = i := by
                          simp only at hce
                          omega
                        subst hji
                        have : c0 = a := by
                          unfold findAppointment at hfind
                          rw [hfind] at hj
                          cases hj
                          rfl
                        subst this
                        simp [hce, hc1, hs1, hc2, hs2]
                      · simp [hce]

/-! ### C8, C10, C5 -/

/-- Looking a row up after an id-preserving replacement commutes with any
projection the replacement does not change on the replaced row. -/
theorem find_replace_map_eq {α β : Type} (idf : α → Nat) (l : List α) (r c : α) (i j : Nat)
    (f : α → β) (hfind : l.find? (fun x => idf x = i) = some c)
    (hid : idf r = idf c) (hf : f r = f c) :
    ((l.map (fun x => if idf x = idf r then r else x)).find? (fun x => idf x = j)).map f =
      (l.find? (fun x => idf x = j)).map f := by
  rw [find_replace_generic idf _ (fun x => by split <;> omega)]
  cases hj : l.find? (fun x => idf x = j) with
  | none => rfl
  | some c0 =>
      simp only [Option.map_map]
      have hc0 : idf c0 = j := by simpa using List.find?_some hj
      have hc : idf c = i := by simpa using List.find?_some hfind
      by_cases hce : idf c0 = idf r
      · have hji : j = i := by omega
        subst hji
        rw [hfind] at hj
        cases hj
        simp [Function.comp, hce, hf]
      · simp [Function.comp, hce]

/-- The partial-update contract of a single field: a present key takes the
submitted value (even `None`), an absent key keeps the old value. -/
def fieldTakes (d : Input) (k : String) (old new : Val) : Prop :=
  match d.lookup k with
  | some v => new = v
  | none => new = old

/-- `Input.getD` realizes the partial-update contract. -/
theorem getD_fieldTakes (d : Input) (k : String) (old : Val) :
    fieldTakes d k old (d.getD k old) := by
  unfold fieldTakes Input.getD
  cases d.lookup k <;> rfl

/-- Key lookup skips a head entry with a different key. -/
theorem lookup_cons_ne (k0 : String) (v0 : Val) (t : Input) (k : String) (h : k ≠ k0) :
    Input.lookup ((k0, v0) :: t) k = Input.lookup t k := by
  unfold Input.lookup
  rw [List.find?_cons_of_neg]
  simp only [decide_eq_true_eq]
  exact fun hh => h hh.symm

/-- C8: `created_at` of every stored client and `paid_at` of every stored
invoice are set to the server clock at creation and are never changed by the
corresponding update handler, whatever the update input contains. -/
theorem C8_creation_timestamps_immutable :
    (∀ st i d j,
        (findClient (update_client st i d).2 j).map ClientRow.created_at =
          (findClient st j).map ClientRow.created_at) ∧
    (∀ st i d j,
        (findInvoice (update_invoice st i d).2 j).map InvoiceRow.paid_at =
          (findInvoice st j).map InvoiceRow.paid_at) ∧
    (∀ st d now r st', create_client st d now = (r, st') → r.code = 201 →
        ∃ c, st'.clients = st.clients ++ [c] ∧ c.created_at = now) ∧
    (∀ st d now r st', create_invoice st d now = (r, st') → r.code = 201 →
        ∃ v, st'.invoices = st.invoices ++ [v] ∧ v.paid_at = now) := by
  refine ⟨?_, ?_, ?_, ?_⟩
  · intro st i d j
    cases hfind : findClient st i with
    | none => simp [update_client, hfind]
    | some client =>
        cases he : (if d.hasKey "email" then validate_email_format (d.get0 "email")
            else some true) with
        | none => simp [update_client, hfind, he]
        | some be =>
            cases be with
            | false => simp [update_client, hfind, he]
            | true =>
                cases hp : (if d.hasKey "phone" then validate_phone_format (d.get0 "phone")
                    else some true) with
                | none => simp [update_client, hfind, he, hp]
                | some bp =>
                    cases bp with
                    | false => simp [update_client, hfind, he, hp]
                    | true =>
                        simp only [update_client, hfind, he, hp, clientCommit]
                        split
                        · rfl
                        · exact find_replace_map_eq ClientRow.id st.clients _ client i j
                            ClientRow.created_at hfind rfl rfl
  · intro st i d j
    cases hfind : findInvoice st i with
    | none => simp [update_invoice, hfind]
    | some invoice =>
        simp only [update_invoice, hfind, invoiceCommit]
        split
        · rfl
        · exact find_replace_map_eq InvoiceRow.id st.invoices _ invoice i j
            InvoiceRow.paid_at hfind rfl rfl
  · intro st d now r st' h hcode
    unfold create_client at h
    repeat' split at h
    all_goals cases h
    all_goals first
      | exact ⟨_, rfl, rfl⟩
      | simp [errResp] at hcode
  · intro st d now r st' h hcode
    unfold create_invoice at h
    split at h
    · cases h; simp [errResp] at hcode
    · split at h
      · cases h; simp [errResp] at hcode
      · cases h; exact ⟨_, rfl, rfl⟩

/-- C8 witness: a concrete create on the populated store assigns the server
clock to `created_at` / `paid_at`. -/
theorem C8_creation_timestamps_immutable_witness :
    (∃ c, ((create_client wStore
        [("name", Val.str "Zoe"), ("phone", Val.str "12"), ("email", Val.str "z@q.io")] 7).2).clients =
          wStore.clients ++ [c] ∧ c.created_at = 7) ∧
    (∃ v, ((create_invoice wStore
        [("appointment_id", Val.num 2), ("total_amount", Val.num 10),
          ("payment_method", Val.str "cash")] 9).2).invoices =
          wStore.invoices ++ [v] ∧ v.paid_at = 9) := by
  obtain ⟨_, _, h3, h4⟩ := C8_creation_timestamps_immutable
  exact ⟨h3 wStore
      [("name", Val.str "Zoe"), ("phone", Val.str "12"), ("email", Val.str "z@q.io")] 7 _ _
      rfl (by decide),
    h4 wStore
      [("appointment_id", Val.num 2), ("total_amount", Val.num 10),
        ("payment_method", Val.str "cash")] 9 _ _ rfl (by decide)⟩

/-- C10: invoice creation stamps `paid_at` with the server clock and ignores
any `paid_at` key of the body, and client creation ignores `created_at` and
`id` keys: two bodies agreeing outside those keys yield identical results. -/
theorem C10_server_assigned_fields :
    (∀ st d1 d2 now, (∀ k, k ≠ "paid_at" → Input.lookup d1 k = Input.lookup d2 k) →
        create_invoice st d1 now = create_invoice st d2 now) ∧
    (∀ st d now r st', create_invoice st d now = (r, st') → r.code = 201 →
        ∃ v, st'.invoices = st.invoices ++ [v] ∧ v.paid_at = now) ∧
    (∀ st d1 d2 now,
        (∀ k, k ≠ "created_at" → k ≠ "id" → Input.lookup d1 k = Input.lookup d2 k) →
        create_client st d1 now = create_client st d2 now) := by
  refine ⟨?_, ?_, ?_⟩
  · intro st d1 d2 now h
    have e : ∀ k, k ≠ "paid_at" → Input.get0 d1 k = Input.get0 d2 k := by
      intro k hk
      unfold Input.get0
      rw [h k hk]
    unfold create_invoice
    rw [show validate_required_fields d1 ["appointment_id", "total_amount", "payment_method"] =
        validate_required_fields d2 ["appointment_id", "total_amount", "payment_method"] by
      simp only [validate_required_fields, e "appointment_id" (by decide),
        e "total_amount" (by decide), e "payment_method" (by decide)],
      e "appointment_id" (by decide), e "total_amount" (by decide),
      e "payment_method" (by decide)]
  · intro st d now r st' h hcode
    unfold create_invoice at h
    split at h
    · cases h; simp [errResp] at hcode
    · split at h
      · cases h; simp [errResp] at hcode
      · cases h; exact ⟨_, rfl, rfl⟩
  · intro st d1 d2 now h
    have e : ∀ k, k ≠ "created_at" → k ≠ "id" → Input.get0 d1 k = Input.get0 d2 k := by
      intro k hk hk2
      unfold Input.get0
      rw [h k hk hk2]
    unfold create_client
    rw [show validate_required_fields d1 ["name", "phone", "email"] =
        validate_required_fields d2 ["name", "phone", "email"] by
      simp only [validate_required_fields, e "name" (by decide) (by decide),
        e "phone" (by decide) (by decide), e "email" (by decide) (by decide)],
      e "name" (by decide) (by decide), e "phone" (by decide) (by decide),
      e "email" (by decide) (by decide)]

/-- C10 witness: two concrete invoice bodies differing only in a `paid_at`
key produce identical results, and likewise client bodies differing only in
`created_at` and `id`; a concrete create stamps `paid_at` with the clock. -/
theorem C10_server_assigned_fields_witness :
    (create_invoice wStore
        [("appointment_id", Val.num 2), ("total_amount", Val.num 10),
          ("payment_method", Val.str "cash"), ("paid_at", Val.dt 77)] 9 =
      create_invoice wStore
        [("appointment_id", Val.num 2), ("total_amount", Val.num 10),
          ("payment_method", Val.str "cash")] 9) ∧
    (∃ v, ((create_invoice wStore
        [("appointment_id", Val.num 2), ("total_amount", Val.num 10),
          ("payment_method", Val.str "cash")] 9).2).invoices =
          wStore.invoices ++ [v] ∧ v.paid_at = 9) ∧
    (create_client wStore
        [("name", Val.str "Zoe"), ("phone", Val.str "12"), ("email", Val.str "z@q.io"),
          ("created_at", Val.dt 55), ("id", Val.num 42)] 7 =
      create_client wStore
        [("name", Val.str "Zoe"), ("phone", Val.str "12"), ("email", Val.str "z@q.io")] 7) := by
  obtain ⟨h1, h2, h3⟩ := C10_server_assigned_fields
  refine ⟨h1 wStore _ _ 9 ?_, h2 wStore
      [("appointment_id", Val.num 2), ("total_amount", Val.num 10),
        ("payment_method", Val.str "cash")] 9 _ _ rfl (by decide),
    h3 wStore _ _ 7 ?_⟩
  · intro k hk
    by_cases ha : k = "appointment_id"
    · subst ha; rfl
    · by_cases hb : k = "total_amount"
      · subst hb; rfl
      · by_cases hc : k = "payment_method"
        · subst hc; rfl
        · rw [lookup_cons_ne _ _ _ _ ha, lookup_cons_ne _ _ _ _ hb,
            lookup_cons_ne _ _ _ _ hc, lookup_cons_ne _ _ _ _ hk,
            lookup_cons_ne _ _ _ _ ha, lookup_cons_ne _ _ _ _ hb,
            lookup_cons_ne _ _ _ _ hc]
  · intro k hk hk2
    by_cases ha : k = "name"
    · subst ha; rfl
    · by_cases hb : k = "phone"
      · subst hb; rfl
      · by_cases hc : k = "email"
        · subst hc; rfl
        · rw [lookup_cons_ne _ _ _ _ ha, lookup_cons_ne _ _ _ _ hb,
            lookup_cons_ne _ _ _ _ hc, lookup_cons_ne _ _ _ _ hk,
            lookup_cons_ne _ _ _ _ hk2, lookup_cons_ne _ _ _ _ ha,
            lookup_cons_ne _ _ _ _ hb, lookup_cons_ne _ _ _ _ hc]

/-! ### C5 -/

/-- C5: a successful partial update whose keys are a subset of the entity's
mutable fields overwrites exactly the fields named by present keys with the
submitted values, keeps every other field (including id and `created_at`)
unchanged, and returns the projection of the updated row.  Shown for the
Client and Stylist update handlers named by the claim. -/
theorem C5_partial_update_field_semantics :
    (∀ st i d client r st',
        findClient st i = some client →
        (∀ p ∈ d, p.1 = "name" ∨ p.1 = "phone" ∨ p.1 = "email") →
        update_client st i d = (r, st') → r.code = 200 →
        ∃ updated : ClientRow,
          findClient st' i = some updated ∧ r.body = updated.to_json ∧
          updated.id = client.id ∧ updated.created_at = client.created_at ∧
          fieldTakes d "name" client.name updated.name ∧
          fieldTakes d "phone" client.phone updated.phone ∧
          fieldTakes d "email" client.email updated.email) ∧
    (∀ st i d stylist r st',
        findStylist st i = some stylist →
        (∀ p ∈ d, p.1 = "name" ∨ p.1 = "specialty" ∨ p.1 = "email" ∨ p.1 = "phone" ∨
          p.1 = "portfolio_images") →
        update_stylist st i d = (r, st') → r.code = 200 →
        ∃ updated : StylistRow,
          findStylist st' i = some updated ∧ r.body = updated.to_json ∧
          updated.id = stylist.id ∧
          fieldTakes d "name" stylist.name updated.name ∧
          fieldTakes d "specialty" stylist.specialty updated.specialty ∧
          fieldTakes d "email" stylist.email updated.email ∧
          fieldTakes d "phone" stylist.phone updated.phone ∧
          fieldTakes d "portfolio_images" stylist.portfolio_images updated.portfolio_images) := by
  constructor
  · intro st i d client r st' hfind hkeys h hcode
    unfold update_client at h
    simp only [hfind] at h
    cases he : (if d.hasKey "email" then validate_email_format (d.get0 "email")
        else some true) with
    | none => simp only [he] at h; cases h; simp [errResp] at hcode
    | some be =>
        cases be with
        | false => simp only [he] at h; cases h; simp [errResp] at hcode
        | true =>
            cases hp : (if d.hasKey "phone" then validate_phone_format (d.get0 "phone")
                else some true) with
            | none => simp only [he, hp] at h; cases h; simp [errResp] at hcode
            | some bp =>
                cases bp with
                | false => simp only [he, hp] at h; cases h; simp [errResp] at hcode
                | true =>
                    simp only [he, hp] at h
                    unfold clientCommit at h
                    split at h
                    · cases h; simp [errResp] at hcode
                    · cases h
                      refine ⟨_, ?_, rfl, rfl, rfl, getD_fieldTakes d "name" client.name,
                        getD_fieldTakes d "phone" client.phone,
                        getD_fieldTakes d "email" client.email⟩
                      show (replaceClient st.clients _).find? (fun c => c.id = i) = _
                      rw [findClient_replace]
                      have hfind2 : List.find? (fun c => decide (c.id = i)) st.clients =
                          some client := hfind
                      rw [hfind2]
                      simp
  · intro st i d stylist r st' hfind hkeys h hcode
    unfold update_stylist at h
    simp only [hfind] at h
    cases he : (if d.hasKey "email" then validate_email_format (d.get0 "email")
        else some true) with
    | none => simp only [he] at h; cases h; simp [errResp] at hcode
    | some be =>
        cases be with
        | false => simp only [he] at h; cases h; simp [errResp] at hcode
        | true =>
            cases hp : (if d.hasKey "phone" then validate_phone_format (d.get0 "phone")
                else some true) with
            | none => simp only [he, hp] at h; cases h; simp [errResp] at hcode
            | some bp =>
                cases bp with
                | false => simp only [he, hp] at h; cases h; simp [errResp] at hcode
                | true =>
                    simp only [he, hp] at h
                    unfold stylistCommit at h
                    split at h
                    · cases h; simp [errResp] at hcode
                    · cases h
                      refine ⟨_, ?_, rfl, rfl, getD_fieldTakes d "name" stylist.name,
                        getD_fieldTakes d "specialty" stylist.specialty,
                        getD_fieldTakes d "email" stylist.email,
                        getD_fieldTakes d "phone" stylist.phone,
                        getD_fieldTakes d "portfolio_images" stylist.portfolio_images⟩
                      show (replaceStylist st.stylists _).find? (fun c => c.id = i) = _
                      rw [findStylist_replace]
                      have hfind2 : List.find? (fun c => decide (c.id = i)) st.stylists =
                          some stylist := hfind
                      rw [hfind2]
                      simp

/-- C5 witness: a concrete partial update of one field on the populated
store satisfies the per-field contract for both entities. -/
theorem C5_partial_update_field_semantics_witness :
    (∃ updated : ClientRow,
        findClient (update_client wStore 1 [("phone", Val.str "777-0000")]).2 1 = some updated ∧
        (update_client wStore 1 [("phone", Val.str "777-0000")]).1.body = updated.to_json ∧
        updated.id = wClient.id ∧ updated.created_at = wClient.created_at ∧
        fieldTakes [("phone", Val.str "777-0000")] "name" wClient.name updated.name ∧
        fieldTakes [("phone", Val.str "777-0000")] "phone" wClient.phone updated.phone ∧
        fieldTakes [("phone", Val.str "777-0000")] "email" wClient.email updated.email) ∧
    (∃ updated : StylistRow,
        findStylist (update_stylist wStore 1 [("specialty", Val.str "Cuts")]).2 1 =
          some updated ∧
        (update_stylist wStore 1 [("specialty", Val.str "Cuts")]).1.body = updated.to_json ∧
        updated.id = wStylist.id ∧
        fieldTakes [("specialty", Val.str "Cuts")] "name" wStylist.name updated.name ∧
        fieldTakes [("specialty", Val.str "Cuts")] "specialty" wStylist.specialty
          updated.specialty ∧
        fieldTakes [("specialty", Val.str "Cuts")] "email" wStylist.email updated.email ∧
        fieldTakes [("specialty", Val.str "Cuts")] "phone" wStylist.phone updated.phone ∧
        fieldTakes [("specialty", Val.str "Cuts")] "portfolio_images" wStylist.portfolio_images
          updated.portfolio_images) := by
  obtain ⟨h1, h2⟩ := C5_partial_update_field_semantics
  exact ⟨h1 wStore 1 [("phone", Val.str "777-0000")] wClient _ _ (by decide) (by decide)
      rfl (by decide),
    h2 wStore 1 [("specialty", Val.str "Cuts")] wStylist _ _ (by decide) (by decide)
      rfl (by decide)⟩

/-! ### C4 -/

/-- Stores reachable from the initial empty database through the HTTP
handlers, with arbitrary request bodies and server clocks. -/
inductive Reachable : Store → Prop where
  | base : Reachable emptyStore
  | stepCreateClient {st : Store} (d : Input) (now : Nat) :
      Reachable st → Reachable (create_client st d now).2
  | stepUpdateClient {st : Store} (i : Nat) (d : Input) :
      Reachable st → Reachable (update_client st i d).2
  | stepDeleteClient {st : Store} (i : Nat) :
      Reachable st → Reachable (delete_client st i).2
  | stepCreateStylist {st : Store} (d : Input) :
      Reachable st → Reachable (create_stylist st d).2
  | stepUpdateStylist {st : Store} (i : Nat) (d : Input) :
      Reachable st → Reachable (update_stylist st i d).2
  | stepDeleteStylist {st : Store} (i : Nat) :
      Reachable st → Reachable (delete_stylist st i).2
  | stepCreateService {st : Store} (d : Input) :
      Reachable st → Reachable (create_service st d).2
  | stepUpdateService {st : Store} (i : Nat) (d : Input) :
      Reachable st → Reachable (update_service st i d).2
  | stepDeleteService {st : Store} (i : Nat) :
      Reachable st → Reachable (delete_service st i).2
  | stepCreateAppointment {st : Store} (d : Input) :
      Reachable st → Reachable (create_appointment st d).2
  | stepUpdateAppointment {st : Store} (i : Nat) (d : Input) :
      Reachable st → Reachable (update_appointment st i d).2
  | stepDeleteAppointment {st : Store} (i : Nat) :
      Reachable st → Reachable (delete_appointment st i).2
  | stepCreateInvoice {st : Store} (d : Input) (now : Nat) :
      Reachable st → Reachable (create_invoice st d now).2
  | stepUpdateInvoice {st : Store} (i : Nat) (d : Input) :
      Reachable st → Reachable (update_invoice st i d).2
  | stepDeleteInvoice {st : Store} (i : Nat) :
      Reachable st → Reachable (delete_invoice st i).2

/-- Well-formedness of the invoice table: ids are below the autoincrement
counter, ids are pairwise distinct, and `appointment_id` values are pairwise
distinct (the UNIQUE constraint). -/
def InvoiceWF (st : Store) : Prop :=
  (∀ v ∈ st.invoices, v.id < st.nextInvoiceId) ∧
  (st.invoices.map InvoiceRow.id).Nodup ∧
  st.invoices.Pairwise (fun a b => a.appointment_id ≠ b.appointment_id)

/-- `InvoiceWF` only depends on the invoice table and its counter. -/
theorem invoiceWF_of_eq {st st' : Store} (h1 : st'.invoices = st.invoices)
    (h2 : st'.nextInvoiceId = st.nextInvoiceId) (h : InvoiceWF st) : InvoiceWF st' := by
  unfold InvoiceWF at *
  rw [h1, h2]
  exact h

/-- Client creation does not touch the invoice table. -/
theorem create_client_inv (st : Store) (d : Input) (now : Nat) :
    (create_client st d now).2.invoices = st.invoices ∧
    (create_client st d now).2.nextInvoiceId = st.nextInvoiceId := by
  unfold create_client
  repeat' split
  all_goals exact ⟨rfl, rfl⟩

/-- Client update does not touch the invoice table. -/
theorem update_client_inv (st : Store) (i : Nat) (d : Input) :
    (update_client st i d).2.invoices = st.invoices ∧
    (update_client st i d).2.nextInvoiceId = st.nextInvoiceId := by
  unfold update_client clientCommit
  repeat' split
  all_goals exact ⟨rfl, rfl⟩

/-- Client deletion does not touch the invoice table. -/
theorem delete_client_inv (st : Store) (i : Nat) :
    (delete_client st i).2.invoices = st.invoices ∧
    (delete_client st i).2.nextInvoiceId = st.nextInvoiceId := by
  unfold delete_client
  repeat' split
  all_goals exact ⟨rfl, rfl⟩

/-- Stylist creation does not touch the invoice table. -/
theorem create_stylist_inv (st : Store) (d : Input) :
    (create_stylist st d).2.invoices = st.invoices ∧
    (create_stylist st d).2.nextInvoiceId = st.nextInvoiceId := by
  unfold create_stylist
  repeat' split
  all_goals exact ⟨rfl, rfl⟩

/-- Stylist update does not touch the invoice table. -/
theorem update_stylist_inv (st : Store) (i : Nat) (d : Input) :
    (update_stylist st i d).2.invoices = st.invoices ∧
    (update_stylist st i d).2.nextInvoiceId = st.nextInvoiceId := by
  unfold update_stylist stylistCommit
  repeat' split
  all_goals exact ⟨rfl, rfl⟩

/-- Stylist deletion does not touch the invoice table. -/
theorem delete_stylist_inv (st : Store) (i : Nat) :
    (delete_stylist st i).2.invoices = st.invoices ∧
    (delete_stylist st i).2.nextInvoiceId = st.nextInvoiceId := by
  unfold delete_stylist
  repeat' split
  all_goals exact ⟨rfl, rfl⟩

/-- Service creation does not touch the invoice table. -/
theorem create_service_inv (st : Store) (d : Input) :
    (create_service st d).2.invoices = st.invoices ∧
    (create_service st d).2.nextInvoiceId = st.nextInvoiceId := by
  unfold create_service
  repeat' split
  all_goals exact ⟨rfl, rfl⟩

/-- Service update does not touch the invoice table. -/
theorem update_service_inv (st : Store) (i : Nat) (d : Input) :
    (update_service st i d).2.invoices = st.invoices ∧
    (update_service st i d).2.nextInvoiceId = st.nextInvoiceId := by
  unfold update_service serviceCommit
  repeat' split
  all_goals exact ⟨rfl, rfl⟩

/-- Service deletion does not touch the invoice table. -/
theorem delete_service_inv (st : Store) (i : Nat) :
    (delete_service st i).2.invoices = st.invoices ∧
    (delete_service st i).2.nextInvoiceId = st.nextInvoiceId := by
  unfold delete_service
  repeat' split
  all_goals exact ⟨rfl, rfl⟩

/-- Appointment creation does not touch the invoice table. -/
theorem create_appointment_inv (st : Store) (d : Input) :
    (create_appointment st d).2.invoices = st.invoices ∧
    (create_appointment st d).2.nextInvoiceId = st.nextInvoiceId := by
  unfold create_appointment
  repeat' split
  all_goals exact ⟨rfl, rfl⟩

/-- Appointment update does not touch the invoice table. -/
theorem update_appointment_inv (st : Store) (i : Nat) (d : Input) :
    (update_appointment st i d).2.invoices = st.invoices ∧
    (update_appointment st i d).2.nextInvoiceId = st.nextInvoiceId := by
  unfold update_appointment appointmentCommit
  repeat' split
  all_goals exact ⟨rfl, rfl⟩

/-- Appointment deletion does not touch the invoice table. -/
theorem delete_appointment_inv (st : Store) (i : Nat) :
    (delete_appointment st i).2.invoices = st.invoices ∧
    (delete_appointment st i).2.nextInvoiceId = st.nextInvoiceId := by
  unfold delete_appointment
  repeat' split
  all_goals exact ⟨rfl, rfl⟩

/-- Invoice creation preserves well-formedness of the invoice table: the
UNIQUE-constraint guard rejects duplicates before the insert. -/
theorem create_invoice_WF (st : Store) (d : Input) (now : Nat) (h : InvoiceWF st) :
    InvoiceWF (create_invoice st d now).2 := by
  obtain ⟨hb, hn, hp⟩ := h
  unfold create_invoice
  split
  · exact ⟨hb, hn, hp⟩
  · split
    · exact ⟨hb, hn, hp⟩
    · rename_i hdup
      refine ⟨?_, ?_, ?_⟩
      · intro v hv
        rcases List.mem_append.1 hv with h1 | h1
        · exact Nat.lt_succ_of_lt (hb v h1)
        · rw [List.mem_singleton.1 h1]
          exact Nat.lt_succ_self _
      · rw [List.map_append, List.nodup_append]
        refine ⟨hn, by simp, ?_⟩
        intro a ha hmem
        simp only [List.map_cons, List.map_nil, List.mem_singleton] at hmem
        subst hmem
        rcases List.mem_map.1 ha with ⟨v, hv, hvid⟩
        have := hb v hv
        omega
      · rw [List.pairwise_append]
        refine ⟨hp, by simp, ?_⟩
        intro a ha b hbm heq
        rw [List.mem_singleton.1 hbm] at heq
        exact hdup (List.any_eq_true.2 ⟨a, ha, by simp [heq]⟩)

/-- Invoice update preserves well-formedness of the invoice table: it never
writes `appointment_id` or `id`. -/
theorem update_invoice_WF (st : Store) (i : Nat) (d : Input) (h : InvoiceWF st) :
    InvoiceWF (update_invoice st i d).2 := by
  obtain ⟨hb, hn, hp⟩ := h
  unfold update_invoice
  cases hfind : findInvoice st i with
  | none => simp only [hfind]; exact ⟨hb, hn, hp⟩
  | some invoice =>
      simp only [hfind, invoiceCommit]
      split
      · exact ⟨hb, hn, hp⟩
      · have hinv : invoice ∈ st.invoices := List.mem_of_find?_eq_some hfind
        have hidmap : ∀ (upd : InvoiceRow),
            (replaceInvoice st.invoices upd).map InvoiceRow.id =
              st.invoices.map InvoiceRow.id := by
          intro upd
          unfold replaceInvoice
          rw [List.map_map]
          apply List.map_congr_left
          intro x hx
          simp only [Function.comp_apply]
          split <;> omega
        have haidmap : ∀ (upd : InvoiceRow), upd.id = invoice.id →
            upd.appointment_id = invoice.appointment_id →
            (replaceInvoice st.invoices upd).map InvoiceRow.appointment_id =
              st.invoices.map InvoiceRow.appointment_id := by
          intro upd hui huaid
          unfold replaceInvoice
          rw [List.map_map]
          apply List.map_congr_left
          intro x hx
          simp only [Function.comp_apply]
          split
          · rename_i hxe
            have hxi : x = invoice :=
              List.inj_on_of_nodup_map hn hx hinv (by omega)
            rw [huaid, hxi]
          · rfl
      
        generalize hupd : ({ invoice with
            total_amount := d.getD "total_amount" invoice.total_amount,
            payment_method := d.getD "payment_method" invoice.payment_method } :
          InvoiceRow) = upd
        have h1 : upd.id = invoice.id := by rw [← hupd]
        have h2 : upd.appointment_id = invoice.appointment_id := by rw [← hupd]
        refine ⟨?_, ?_, ?_⟩
        · intro v hv
          have hv2 : v.id ∈ (replaceInvoice st.invoices upd).map InvoiceRow.id :=
            List.mem_map_of_mem _ hv
          rw [hidmap] at hv2
          rcases List.mem_map.1 hv2 with ⟨x, hx, hxe⟩
          have := hb x hx
          show v.id < st.nextInvoiceId
          omega
        · show ((replaceInvoice st.invoices upd).map InvoiceRow.id).Nodup
          rw [hidmap]
          exact hn
        · show (replaceInvoice st.invoices upd).Pairwise _
          apply List.pairwise_map.1
          rw [haidmap upd h1 h2]
          exact List.pairwise_map.2 hp

/-- Invoice deletion preserves well-formedness of the invoice table. -/
theorem delete_invoice_WF (st : Store) (i : Nat) (h : InvoiceWF st) :
    InvoiceWF (delete_invoice st i).2 := by
  obtain ⟨hb, hn, hp⟩ := h
  unfold delete_invoice
  split
  · exact ⟨hb, hn, hp⟩
  · have hs : List.Sublist (st.invoices.filter (fun c => c.id != i)) st.invoices :=
      List.filter_sublist _
    exact ⟨fun v hv => hb v (hs.subset hv), hn.sublist (hs.map _), hp.sublist hs⟩

/-- Every reachable store has a well-formed invoice table. -/
theorem reachable_invoiceWF {st : Store} (h : Reachable st) : InvoiceWF st := by
  induction h with
  | base => exact ⟨by simp [emptyStore], by simp [emptyStore], by simp [emptyStore]⟩
  | stepCreateClient d now _ ih =>
      exact invoiceWF_of_eq (create_client_inv _ d now).1 (create_client_inv _ d now).2 ih
  | stepUpdateClient i d _ ih =>
      exact invoiceWF_of_eq (update_client_inv _ i d).1 (update_client_inv _ i d).2 ih
  | stepDeleteClient i _ ih =>
      exact invoiceWF_of_eq (delete_client_inv _ i).1 (delete_client_inv _ i).2 ih
  | stepCreateStylist d _ ih =>
      exact invoiceWF_of_eq (create_stylist_inv _ d).1 (create_stylist_inv _ d).2 ih
  | stepUpdateStylist i d _ ih =>
      exact invoiceWF_of_eq (update_stylist_inv _ i d).1 (update_stylist_inv _ i d).2 ih
  | stepDeleteStylist i _ ih =>
      exact invoiceWF_of_eq (delete_stylist_inv _ i).1 (delete_stylist_inv _ i).2 ih
  | stepCreateService d _ ih =>
      exact invoiceWF_of_eq (create_service_inv _ d).1 (create_service_inv _ d).2 ih
  | stepUpdateService i d _ ih =>
      exact invoiceWF_of_eq (update_service_inv _ i d).1 (update_service_inv _ i d).2 ih
  | stepDeleteService i _ ih =>
      exact invoiceWF_of_eq (delete_service_inv _ i).1 (delete_service_inv _ i).2 ih
  | stepCreateAppointment d _ ih =>
      exact invoiceWF_of_eq (create_appointment_inv _ d).1 (create_appointment_inv _ d).2 ih
  | stepUpdateAppointment i d _ ih =>
      exact invoiceWF_of_eq (update_appointment_inv _ i d).1 (update_appointment_inv _ i d).2 ih
  | stepDeleteAppointment i _ ih =>
      exact invoiceWF_of_eq (delete_appointment_inv _ i).1 (delete_appointment_inv _ i).2 ih
  | stepCreateInvoice d now _ ih => exact create_invoice_WF _ d now ih
  | stepUpdateInvoice i d _ ih => exact update_invoice_WF _ i d ih
  | stepDeleteInvoice i _ ih => exact delete_invoice_WF _ i ih

/-- C4: every reachable store holds at most one invoice per
`appointment_id`, and an invoice create whose `appointment_id` equals that
of a stored invoice fails (never HTTP 201) and leaves the store unchanged —
the UNIQUE constraint enforces the invariant although the handler performs
no duplicate check. -/
theorem C4_invoice_uniqueness :
    (∀ st, Reachable st →
        st.invoices.Pairwise (fun a b => a.appointment_id ≠ b.appointment_id)) ∧
    (∀ st d now inv, inv ∈ st.invoices →
        inv.appointment_id = Input.get0 d "appointment_id" →
        (create_invoice st d now).1.code ≠ 201 ∧ (create_invoice st d now).2 = st) := by
  constructor
  · intro st h
    exact (reachable_invoiceWF h).2.2
  · intro st d now inv hmem haid
    unfold create_invoice
    split
    · exact ⟨by simp [errResp], rfl⟩
    · rw [if_pos (List.any_eq_true.2 ⟨inv, hmem, by simp [haid]⟩)]
      exact ⟨by simp [errResp], rfl⟩

/-- C4 witness: the empty store satisfies the invariant, and a concrete
duplicate invoice create on the populated store is rejected without change:
`wStore` already holds an invoice for appointment 1. -/
theorem C4_invoice_uniqueness_witness :
    emptyStore.invoices.Pairwise (fun a b => a.appointment_id ≠ b.appointment_id) ∧
    ((create_invoice wStore
        [("appointment_id", Val.num 1), ("total_amount", Val.num 15),
          ("payment_method", Val.str "cash")] 5).1.code ≠ 201 ∧
      (create_invoice wStore
        [("appointment_id", Val.num 1), ("total_amount", Val.num 15),
          ("payment_method", Val.str "cash")] 5).2 = wStore) :=
  ⟨C4_invoice_uniqueness.1 emptyStore Reachable.base,
    C4_invoice_uniqueness.2 wStore
      [("appointment_id", Val.num 1), ("total_amount", Val.num 15),
        ("payment_method", Val.str "cash")] 5 wInvoice (by decide) (by decide)⟩

/-! ### C6 -/

/-- The first field of the list whose value in the input is absent or falsy
(this is the field the handler's error message names). -/
def firstFalsy (d : Input) (fields : List String) : Option String :=
  fields.find? (fun f => (d.get0 f).falsy)

/-- `validate_required_fields` reports exactly the first absent-or-falsy
field of the required list. -/
theorem validate_required_firstFalsy (d : Input) (fs : List String) :
    validate_required_fields d fs =
      (firstFalsy d fs).map (fun f => "Missing required field: " ++ f) := by
  induction fs with
  | nil => rfl
  | cons a t ih =>
      by_cases h : (d.get0 a).falsy
      · simp [validate_required_fields, firstFalsy, List.find?_cons_of_pos, h]
      · simpa [validate_required_fields, firstFalsy, List.find?_cons_of_neg, h] using ih

/-- C6 (amended): for every Create request, if some field of the entity's
required set is absent or falsy in the input, the operation fails with the
message naming the first such field in the handler's declared order, and
persists nothing. -/
theorem C6_missing_required_field_rejected :
    (∀ st d now f, firstFalsy d ["name", "phone", "email"] = some f →
        create_client st d now = (errResp 400 ("Missing required field: " ++ f), st)) ∧
    (∀ st d f, firstFalsy d ["name", "specialty", "email", "phone"] = some f →
        create_stylist st d = (errResp 400 ("Missing required field: " ++ f), st)) ∧
    (∀ st d f, firstFalsy d ["name", "duration", "price"] = some f →
        create_service st d = (errResp 400 ("Missing required field: " ++ f), st)) ∧
    (∀ st d f, firstFalsy d ["client_id", "stylist_id", "service_id", "date", "time"] = some f →
        create_appointment st d = (errResp 400 ("Missing required field: " ++ f), st)) ∧
    (∀ st d now f, firstFalsy d ["appointment_id", "total_amount", "payment_method"] = some f →
        create_invoice st d now = (errResp 400 ("Missing required field: " ++ f), st)) := by
  refine ⟨fun st d now f h => ?_, fun st d f h => ?_, fun st d f h => ?_,
    fun st d f h => ?_, fun st d now f h => ?_⟩ <;>
  simp [create_client, create_stylist, create_service, create_appointment, create_invoice,
    validate_required_firstFalsy, h, errResp]

/-- C6 counterexample: with body `{"email": "a@b.co"}` the required field
`phone` is absent, but client creation reports `name` — not `phone` — so
the per-field message of the claim does not hold as stated. -/
theorem C6_missing_required_field_rejected_counterexample :
    Input.lookup [("email", Val.str "a@b.co")] "phone" = none ∧
    (Input.get0 [("email", Val.str "a@b.co")] "phone").falsy = true ∧
    create_client emptyStore [("email", Val.str "a@b.co")] 0 =
      (errResp 400 "Missing required field: name", emptyStore) ∧
    (create_client emptyStore [("email", Val.str "a@b.co")] 0).1 ≠
      errResp 400 "Missing required field: phone" := by
  refine ⟨rfl, rfl, ?_, ?_⟩ <;> decide

/-- C6 witness: with body `{"name": "Ann"}` the first absent required field
is `phone`, and client creation fails with exactly that message, leaving the
store unchanged. -/
theorem C6_missing_required_field_rejected_witness :
    firstFalsy [("name", Val.str "Ann")] ["name", "phone", "email"] = some "phone" ∧
    create_client emptyStore [("name", Val.str "Ann")] 0 =
      (errResp 400 "Missing required field: phone", emptyStore) :=
  ⟨by decide,
    C6_missing_required_field_rejected.1 emptyStore [("name", Val.str "Ann")] 0 "phone"
      (by decide)⟩

/-! ### C7 -/

/-- The spec's email shape: `local-part@domain.tld`, where the local part
and the domain consist of word characters, dots or hyphens, and the TLD is
one or more word characters (the domain/TLD split is at some dot). -/
def specEmail (cs : List Char) : Prop :=
  ∃ l d t : List Char, cs = l ++ '@' :: (d ++ '.' :: t) ∧ l ≠ [] ∧ d ≠ [] ∧ t ≠ [] ∧
    (∀ c ∈ l, isLocalChar c = true) ∧ (∀ c ∈ d, isLocalChar c = true) ∧
    (∀ c ∈ t, isWordChar c = true)

/-- `matchPlus p k` accepts exactly the splits into a nonempty `p`-block
followed by a `k`-accepted remainder. -/
theorem matchPlus_iff (p : Char → Bool) (k : List Char → Bool) (cs : List Char) :
    matchPlus p k cs = true ↔
      ∃ a b, cs = a ++ b ∧ a ≠ [] ∧ (∀ c ∈ a, p c = true) ∧ k b = true := by
  induction cs with
  | nil =>
      constructor
      · intro h
        simp [matchPlus] at h
      · rintro ⟨a, b, habs, hne, -, -⟩
        exact absurd (List.append_eq_nil.1 habs.symm).1 hne
  | cons c t ih =>
      simp only [matchPlus, Bool.and_eq_true, Bool.or_eq_true, ih]
      constructor
      · rintro ⟨hpc, hk | ⟨a, b, rfl, hne, hall, hkb⟩⟩
        · exact ⟨[c], t, rfl, by simp, by simpa using hpc, hk⟩
        · refine ⟨c :: a, b, rfl, by simp, ?_, hkb⟩
          intro x hx
          rcases List.mem_cons.1 hx with rfl | hx
          · exact hpc
          · exact hall x hx
      · rintro ⟨a, b, heq, hne, hall, hkb⟩
        cases a with
        | nil => exact absurd rfl hne
        | cons a0 a1 =>
            rw [List.cons_append] at heq
            injection heq with h1 h2
            subst h1
            refine ⟨hall c (List.mem_cons_self c a1), ?_⟩
            cases a1 with
            | nil =>
                left
                rw [h2]
                simpa using hkb
            | cons x xs =>
                right
                exact ⟨x :: xs, b, h2, by simp, fun y hy => hall y (List.mem_cons_of_mem c hy),
                  hkb⟩

/-- Character-level characterization of the email regex, for any
interpretation of the `$` anchor. -/
theorem emailRegexMatch_iff (endp : List Char → Bool) (cs : List Char) :
    emailRegexMatch endp cs = true ↔
      ∃ l d t rest : List Char,
        cs = l ++ '@' :: (d ++ '.' :: (t ++ rest)) ∧ l ≠ [] ∧ d ≠ [] ∧ t ≠ [] ∧
        (∀ c ∈ l, isLocalChar c = true) ∧ (∀ c ∈ d, isLocalChar c = true) ∧
        (∀ c ∈ t, isWordChar c = true) ∧ endp rest = true := by
  unfold emailRegexMatch
  rw [matchPlus_iff]
  constructor
  · rintro ⟨l, b, rfl, hl, hlall, hk⟩
    split at hk
    · rw [matchPlus_iff] at hk
      obtain ⟨d, b2, rfl, hd, hdall, hk2⟩ := hk
      split at hk2
      · rw [matchPlus_iff] at hk2
        obtain ⟨t, rest, rfl, ht, htall, hend⟩ := hk2
        exact ⟨l, d, t, rest, rfl, hl, hd, ht, hlall, hdall, htall, hend⟩
      · cases hk2
    · cases hk
  · rintro ⟨l, d, t, rest, rfl, hl, hd, ht, hlall, hdall, htall, hend⟩
    refine ⟨l, '@' :: (d ++ '.' :: (t ++ rest)), rfl, hl, hlall, ?_⟩
    show matchPlus isLocalChar _ (d ++ '.' :: (t ++ rest)) = true
    rw [matchPlus_iff]
    refine ⟨d, '.' :: (t ++ rest), rfl, hd, hdall, ?_⟩
    show matchPlus isWordChar endp (t ++ rest) = true
    rw [matchPlus_iff]
    exact ⟨t, rest, rfl, ht, htall, hend⟩

/-- The email regex under the real `$` semantics accepts exactly the spec
shape, possibly followed by one trailing newline. -/
theorem emailDollar_iff (cs : List Char) :
    emailRegexMatch dollarEnd cs = true ↔
      specEmail cs ∨ ∃ cs0, cs = cs0 ++ ['\n'] ∧ specEmail cs0 := by
  rw [emailRegexMatch_iff]
  constructor
  · rintro ⟨l, d, t, rest, rfl, hl, hd, ht, ha, hb, hc, hend⟩
    have hrest : rest = [] ∨ rest = ['\n'] := by
      simpa [dollarEnd] using hend
    rcases hrest with rfl | rfl
    · exact Or.inl ⟨l, d, t, by simp, hl, hd, ht, ha, hb, hc⟩
    · refine Or.inr ⟨l ++ '@' :: (d ++ '.' :: t), by simp, l, d, t, rfl, hl, hd, ht, ha, hb, hc⟩
  · rintro (⟨l, d, t, rfl, hl, hd, ht, ha, hb, hc⟩ |
      ⟨cs0, rfl, ⟨l, d, t, rfl, hl, hd, ht, ha, hb, hc⟩⟩)
    · exact ⟨l, d, t, [], by simp, hl, hd, ht, ha, hb, hc, by simp [dollarEnd]⟩
    · exact ⟨l, d, t, ['\n'], by simp, hl, hd, ht, ha, hb, hc, by simp [dollarEnd]⟩

/-- C7 counterexample: Python's `$` also matches just before one final
newline, so `"a@b.co\n"` is accepted by the code although it does not match
the spec's `local-part@domain.tld` shape. -/
theorem C7_email_validation_counterexample :
    validate_email_format (Val.str "a@b.co\n") = some true ∧
    ¬ specEmail ("a@b.co\n".data) := by
  refine ⟨by decide, ?_⟩
  rintro ⟨l, d, t, heq, hl, hd, ht, ha, hb, hc⟩
  have hmem : '\n' ∈ ("a@b.co\n".data) := by decide
  rw [heq] at hmem
  simp only [List.mem_append, List.mem_cons] at hmem
  rcases hmem with h | h | h | h | h
  · have := ha _ h
    simp [isLocalChar, isWordChar] at this
  · cases h
  · have := hb _ h
    simp [isLocalChar, isWordChar] at this
  · cases h
  · have := hc _ h
    simp [isWordChar] at this

/-- C7 (amended): the email check accepts every empty or absent value; it
accepts a non-empty string iff the string — possibly after removing a single
trailing newline admitted by the regex anchor — has the spec's
`local-part@domain.tld` shape; `"a@b.co"` is accepted, `"not-an-email"` is
rejected, and client creation with it fails with exactly
`"Invalid email format"` persisting nothing. -/
theorem C7_email_validation :
    validate_email_format Val.null = some true ∧
    validate_email_format (Val.str "") = some true ∧
    validate_email_format (Val.str "a@b.co") = some true ∧
    validate_email_format (Val.str "not-an-email") = some false ∧
    create_client emptyStore
      [("name", Val.str "Ann"), ("phone", Val.str "12"), ("email", Val.str "not-an-email")] 0 =
      (errResp 400 "Invalid email format", emptyStore) ∧
    (∀ s : String, s ≠ "" →
        (validate_email_format (Val.str s) = some true ↔
          specEmail s.data ∨ ∃ cs0, s.data = cs0 ++ ['\n'] ∧ specEmail cs0)) := by
  refine ⟨rfl, rfl, by decide, by decide, by decide, ?_⟩
  intro s hs
  have hv : validate_email_format (Val.str s) = some (emailRegexMatch dollarEnd s.data) := by
    simp [validate_email_format, Val.falsy, hs]
  rw [hv]
  simp only [Option.some.injEq]
  exact emailDollar_iff s.data

/-- C7 witness: the characterization applied to the concrete accepted
address. -/
theorem C7_email_validation_witness :
    ("a@b.co" : String) ≠ "" ∧
    (validate_email_format (Val.str "a@b.co") = some true ↔
      specEmail ("a@b.co".data) ∨ ∃ cs0, ("a@b.co".data) = cs0 ++ ['\n'] ∧ specEmail cs0) :=
  ⟨by decide, C7_email_validation.2.2.2.2.2 "a@b.co" (by decide)⟩

/-! ### C3: characterizing `strptime` -/

/-- `Char.ofNat` inverted by `Char.toNat` below the surrogate range. -/
theorem charToNat_ofNat {n : Nat} (h : n < 55296) : (Char.ofNat n).toNat = n := by
  have hv : Nat.isValidChar n := Or.inl h
  unfold Char.ofNat
  rw [dif_pos hv]
  unfold Char.ofNatAux
  show (BitVec.ofNatLt n _).toNat = n
  simp [BitVec.toNat_ofNatLt]

/-- The code point of a digit character. -/
theorem digitToChar_toNat {n : Nat} (h : n < 10) : (digitToChar n).toNat = 48 + n := by
  unfold digitToChar
  exact charToNat_ofNat (by omega)

/-- Rebuilding a digit character from its numeric value. -/
theorem dc_of_sub {c : Char} (h48 : 48 ≤ c.toNat) (h57 : c.toNat ≤ 57) :
    digitToChar (c.toNat - 48) = c := by
  unfold digitToChar
  have e : 48 + (c.toNat - 48) = c.toNat := by omega
  rw [e]
  exact charOfNat_toNat (by omega)

/-- The decimal renderings of a field value that the `strptime` regexes
admit for `%m`, `%H`, `%M` and `%S`: the plain digits, with a leading zero
admissible for one-digit values. -/
def numReprs2 (n : Nat) : List (List Char) :=
  if n < 10 then [[digitToChar n], twoDigitChars n] else [twoDigitChars n]

/-- The renderings admitted for `%d`: additionally a leading blank for
one-digit values. -/
def dayReprs (n : Nat) : List (List Char) :=
  if n < 10 then [[digitToChar n], twoDigitChars n, [' ', digitToChar n]]
  else [twoDigitChars n]

/-- The two-digit rendering is always admitted. -/
theorem two_mem_numReprs2 (n : Nat) : twoDigitChars n ∈ numReprs2 n := by
  unfold numReprs2
  split <;> simp

/-- The two-digit rendering is always admitted for days. -/
theorem two_mem_dayReprs (n : Nat) : twoDigitChars n ∈ dayReprs n := by
  unfold dayReprs
  split <;> simp

/-- Inverting an alternative of shape `x[a-b]`. -/
theorem litRangeAlt_sound {x lo hi : Char} {base : Nat} {cs : List Char} {n : Nat}
    {rest : List Char} (h : litRangeAlt x lo hi base cs = some (n, rest)) :
    ∃ c2, cs = x :: c2 :: rest ∧ lo.toNat ≤ c2.toNat ∧ c2.toNat ≤ hi.toNat ∧
      n = base + (c2.toNat - 48) := by
  unfold litRangeAlt at h
  split at h
  · rename_i c1 c2 t2
    split at h
    · rename_i hc
      obtain ⟨h1, h2, h3⟩ := hc
      injection h with h4
      injection h4 with h5 h6
      subst h1 h5 h6
      exact ⟨c2, rfl, char_le_iff.1 h2, char_le_iff.1 h3, rfl⟩
    · cases h
  · cases h

/-- Inverting an alternative of shape `[a-b]\d`. -/
theorem rangeDigitAlt_sound {lo hi : Char} {cs : List Char} {n : Nat} {rest : List Char}
    (h : rangeDigitAlt lo hi cs = some (n, rest)) :
    ∃ c1 c2, cs = c1 :: c2 :: rest ∧ lo.toNat ≤ c1.toNat ∧ c1.toNat ≤ hi.toNat ∧
      48 ≤ c2.toNat ∧ c2.toNat ≤ 57 ∧ n = (c1.toNat - 48) * 10 + (c2.toNat - 48) := by
  unfold rangeDigitAlt at h
  split at h
  · rename_i c1 c2 t2
    split at h
    · rename_i hc
      obtain ⟨⟨h1, h2⟩, h3, h4⟩ := hc
      injection h with h5
      injection h5 with h6 h7
      subst h6 h7
      have e0 : ('0' : Char).toNat = 48 := rfl
      have e9 : ('9' : Char).toNat = 57 := rfl
      exact ⟨c1, c2, rfl, char_le_iff.1 h1, char_le_iff.1 h2,
        by have := char_le_iff.1 h3; omega, by have := char_le_iff.1 h4; omega, rfl⟩
    · cases h
  · cases h

/-- Inverting an alternative of shape `[a-b]`. -/
theorem singleAlt_sound {lo hi : Char} {cs : List Char} {n : Nat} {rest : List Char}
    (h : singleAlt lo hi cs = some (n, rest)) :
    ∃ c, cs = c :: rest ∧ lo.toNat ≤ c.toNat ∧ c.toNat ≤ hi.toNat ∧ n = c.toNat - 48 := by
  unfold singleAlt at h
  split at h
  · rename_i c t
    split at h
    · rename_i hc
      obtain ⟨h1, h2⟩ := hc
      injection h with h3
      injection h3 with h4 h5
      subst h4 h5
      exact ⟨c, rfl, char_le_iff.1 h1, char_le_iff.1 h2, rfl⟩
    · cases h
  · cases h

/-- Inverting `charDigit`. -/
theorem charDigit_sound {c : Char} {n : Nat} (h : charDigit c = some n) :
    48 ≤ c.toNat ∧ c.toNat ≤ 57 ∧ n = c.toNat - 48 := by
  unfold charDigit at h
  split at h
  · rename_i hc
    injection h with h2
    have e0 : ('0' : Char).toNat = 48 := rfl
    have e9 : ('9' : Char).toNat = 57 := rfl
    have l1 := char_le_iff.1 hc.1
    have l2 := char_le_iff.1 hc.2
    exact ⟨by omega, by omega, h2.symm⟩
  · cases h

/-- `charDigit` accepts every digit character. -/
theorem charDigit_digitToChar {n : Nat} (h : n < 10) : charDigit (digitToChar n) = some n := by
  unfold charDigit
  rw [if_pos]
  · rw [digitToChar_toNat h]
    congr 1
    omega
  · have e0 : ('0' : Char).toNat = 48 := rfl
    have e9 : ('9' : Char).toNat = 57 := rfl
    constructor
    · exact char_le_iff.2 (by rw [digitToChar_toNat h, e0]; omega)
    · exact char_le_iff.2 (by rw [digitToChar_toNat h, e9]; omega)

/-- Inverting `%Y`. -/
theorem yearMatch_sound {cs : List Char} {y : Nat} {rest : List Char}
    (h : yearMatch cs = some (y, rest)) : y ≤ 9999 ∧ cs = fourDigitChars y ++ rest := by
  unfold yearMatch at h
  split at h
  · rename_i a b c d t
    cases ha : charDigit a with
    | none => simp only [ha] at h; exact Option.noConfusion h
    | some x1 =>
        cases hb : charDigit b with
        | none => simp only [ha, hb] at h; exact Option.noConfusion h
        | some x2 =>
            cases hc : charDigit c with
            | none => simp only [ha, hb, hc] at h; exact Option.noConfusion h
            | some x3 =>
                cases hd : charDigit d with
                | none => simp only [ha, hb, hc, hd] at h; exact Option.noConfusion h
                | some x4 =>
                    simp only [ha, hb, hc, hd, Option.some.injEq, Prod.mk.injEq] at h
                    obtain ⟨hy, hrest⟩ := h
                    obtain ⟨ha1, ha2, ha3⟩ := charDigit_sound ha
                    obtain ⟨hb1, hb2, hb3⟩ := charDigit_sound hb
                    obtain ⟨hc1, hc2, hc3⟩ := charDigit_sound hc
                    obtain ⟨hd1, hd2, hd3⟩ := charDigit_sound hd
                    subst hrest
                    constructor
                    · omega
                    · unfold fourDigitChars
                      have e1 : y / 1000 = x1 := by omega
                      have e2 : y / 100 % 10 = x2 := by omega
                      have e3 : y / 10 % 10 = x3 := by omega
                      have e4 : y % 10 = x4 := by omega
                      rw [e1, e2, e3, e4, ha3, hb3, hc3, hd3,
                        dc_of_sub ha1 ha2, dc_of_sub hb1 hb2, dc_of_sub hc1 hc2,
                        dc_of_sub hd1 hd2]
                      rfl
  · cases h

theorem yearMatch_complete {y : Nat} (h : y ≤ 9999) (rest : List Char) :
    yearMatch (fourDigitChars y ++ rest) = some (y, rest) := by
  unfold yearMatch fourDigitChars
  show (match charDigit (digitToChar (y / 1000)), charDigit (digitToChar (y / 100 % 10)),
      charDigit (digitToChar (y / 10 % 10)), charDigit (digitToChar (y % 10)) with
    | some x1, some x2, some x3, some x4 => some (x1 * 1000 + x2 * 100 + x3 * 10 + x4, rest)
    | _, _, _, _ => none) = some (y, rest)
  rw [charDigit_digitToChar (show y / 1000 < 10 by omega),
    charDigit_digitToChar (show y / 100 % 10 < 10 by omega),
    charDigit_digitToChar (show y / 10 % 10 < 10 by omega),
    charDigit_digitToChar (show y % 10 < 10 by omega)]
  have e : y / 1000 * 1000 + y / 100 % 10 * 100 + y / 10 % 10 * 10 + y % 10 = y := by omega
  simp [e]

/-- Every member of `monthAlts` is a month 1-12 preceded by one of its
admitted renderings. -/
theorem mem_monthAlts {cs : List Char} {mr : Nat × List Char} (h : mr ∈ monthAlts cs) :
    1 ≤ mr.1 ∧ mr.1 ≤ 12 ∧ ∃ ms ∈ numReprs2 mr.1, cs = ms ++ mr.2 := by
  obtain ⟨m, rest⟩ := mr
  simp only [monthAlts, List.mem_append, Option.mem_toList, Option.mem_def] at h
  have e0 : ('0' : Char).toNat = 48 := rfl
  have e1 : ('1' : Char).toNat = 49 := rfl
  have e2 : ('2' : Char).toNat = 50 := rfl
  have e9 : ('9' : Char).toNat = 57 := rfl
  rcases h with (h | h) | h
  · obtain ⟨c2, rfl, hlo, hhi, rfl⟩ := litRangeAlt_sound h
    refine ⟨by omega, by omega, twoDigitChars (10 + (c2.toNat - 48)), ?_, ?_⟩
    · have hge : ¬ (10 + (c2.toNat - 48) < 10) := by omega
      simp [numReprs2, hge]
    · unfold twoDigitChars
      have d1 : (10 + (c2.toNat - 48)) / 10 = 1 := by omega
      have d2 : (10 + (c2.toNat - 48)) % 10 = c2.toNat - 48 := by omega
      rw [d1, d2, dc_of_sub (by omega) (by omega)]
      rfl
  · obtain ⟨c2, rfl, hlo, hhi, rfl⟩ := litRangeAlt_sound h
    simp only [Nat.zero_add]
    refine ⟨by omega, by omega, twoDigitChars (c2.toNat - 48), ?_, ?_⟩
    · exact two_mem_numReprs2 _
    · unfold twoDigitChars
      have d1 : (c2.toNat - 48) / 10 = 0 := by omega
      have d2 : (c2.toNat - 48) % 10 = c2.toNat - 48 := by omega
      rw [d1, d2, dc_of_sub (by omega) (by omega)]
      rfl
  · obtain ⟨c, rfl, hlo, hhi, rfl⟩ := singleAlt_sound h
    refine ⟨by omega, by omega, [digitToChar (c.toNat - 48)], ?_, ?_⟩
    · have hlt : c.toNat - 48 < 10 := by omega
      simp [numReprs2, hlt]
    · rw [dc_of_sub (by omega) (by omega)]
      rfl

/-- Every member of `dayAlts` is a day 1-31 preceded by one of its admitted
renderings. -/
theorem mem_dayAlts {cs : List Char} {dr : Nat × List Char} (h : dr ∈ dayAlts cs) :
    1 ≤ dr.1 ∧ dr.1 ≤ 31 ∧ ∃ ds ∈ dayReprs dr.1, cs = ds ++ dr.2 := by
  obtain ⟨d, rest⟩ := dr
  simp only [dayAlts, List.mem_append, Option.mem_toList, Option.mem_def] at h
  have e0 : ('0' : Char).toNat = 48 := rfl
  have e1 : ('1' : Char).toNat = 49 := rfl
  have e2 : ('2' : Char).toNat = 50 := rfl
  have e9 : ('9' : Char).toNat = 57 := rfl
  rcases h with (((h | h) | h) | h) | h
  · obtain ⟨c2, rfl, hlo, hhi, rfl⟩ := litRangeAlt_sound h
    refine ⟨by omega, by omega, twoDigitChars (30 + (c2.toNat - 48)), two_mem_dayReprs _, ?_⟩
    unfold twoDigitChars
    have d1 : (30 + (c2.toNat - 48)) / 10 = 3 := by omega
    have d2 : (30 + (c2.toNat - 48)) % 10 = c2.toNat - 48 := by omega
    rw [d1, d2, dc_of_sub (by omega) (by omega)]
    rfl
  · obtain ⟨c1, c2, rfl, hlo, hhi, hlo2, hhi2, rfl⟩ := rangeDigitAlt_sound h
    refine ⟨by omega, by omega,
      twoDigitChars ((c1.toNat - 48) * 10 + (c2.toNat - 48)), two_mem_dayReprs _, ?_⟩
    unfold twoDigitChars
    have d1 : ((c1.toNat - 48) * 10 + (c2.toNat - 48)) / 10 = c1.toNat - 48 := by omega
    have d2 : ((c1.toNat - 48) * 10 + (c2.toNat - 48)) % 10 = c2.toNat - 48 := by omega
    rw [d1, d2, dc_of_sub (by omega) (by omega), dc_of_sub (by omega) (by omega)]
    rfl
  · obtain ⟨c2, rfl, hlo, hhi, rfl⟩ := litRangeAlt_sound h
    simp only [Nat.zero_add]
    refine ⟨by omega, by omega, twoDigitChars (c2.toNat - 48), two_mem_dayReprs _, ?_⟩
    unfold twoDigitChars
    have d1 : (c2.toNat - 48) / 10 = 0 := by omega
    have d2 : (c2.toNat - 48) % 10 = c2.toNat - 48 := by omega
    rw [d1, d2, dc_of_sub (by omega) (by omega)]
    rfl
  · obtain ⟨c, rfl, hlo, hhi, rfl⟩ := singleAlt_sound h
    refine ⟨by omega, by omega, [digitToChar (c.toNat - 48)], ?_, ?_⟩
    · have hlt : c.toNat - 48 < 10 := by omega
      simp [dayReprs, hlt]
    · rw [dc_of_sub (by omega) (by omega)]
      rfl
  · obtain ⟨c2, rfl, hlo, hhi, rfl⟩ := litRangeAlt_sound h
    simp only [Nat.zero_add]
    refine ⟨by omega, by omega, [' ', digitToChar (c2.toNat - 48)], ?_, ?_⟩
    · have hlt : c2.toNat - 48 < 10 := by omega
      simp [dayReprs, hlt]
    · rw [dc_of_sub (by omega) (by omega)]
      rfl

/-- Every member of `hourAlts` is an hour 0-23 preceded by one of its
admitted renderings. -/
theorem mem_hourAlts {cs : List Char} {hr : Nat × List Char} (h : hr ∈ hourAlts cs) :
    hr.1 ≤ 23 ∧ ∃ hs ∈ numReprs2 hr.1, cs = hs ++ hr.2 := by
  obtain ⟨hh, rest⟩ := hr
  simp only [hourAlts, List.mem_append, Option.mem_toList, Option.mem_def] at h
  have e0 : ('0' : Char).toNat = 48 := rfl
  have e1 : ('1' : Char).toNat = 49 := rfl
  have e3 : ('3' : Char).toNat = 51 := rfl
  have e9 : ('9' : Char).toNat = 57 := rfl
  rcases h with (h | h) | h
  · obtain ⟨c2, rfl, hlo, hhi, rfl⟩ := litRangeAlt_sound h
    refine ⟨by omega, twoDigitChars (20 + (c2.toNat - 48)), two_mem_numReprs2 _, ?_⟩
    unfold twoDigitChars
    have d1 : (20 + (c2.toNat - 48)) / 10 = 2 := by omega
    have d2 : (20 + (c2.toNat - 48)) % 10 = c2.toNat - 48 := by omega
    rw [d1, d2, dc_of_sub (by omega) (by omega)]
    rfl
  · obtain ⟨c1, c2, rfl, hlo, hhi, hlo2, hhi2, rfl⟩ := rangeDigitAlt_sound h
    refine ⟨by omega,
      twoDigitChars ((c1.toNat - 48) * 10 + (c2.toNat - 48)), two_mem_numReprs2 _, ?_⟩
    unfold twoDigitChars
    have d1 : ((c1.toNat - 48) * 10 + (c2.toNat - 48)) / 10 = c1.toNat - 48 := by omega
    have d2 : ((c1.toNat - 48) * 10 + (c2.toNat - 48)) % 10 = c2.toNat - 48 := by omega
    rw [d1, d2, dc_of_sub (by omega) (by omega), dc_of_sub (by omega) (by omega)]
    rfl
  · obtain ⟨c, rfl, hlo, hhi, rfl⟩ := singleAlt_sound h
    refine ⟨by omega, [digitToChar (c.toNat - 48)], ?_, ?_⟩
    · have hlt : c.toNat - 48 < 10 := by omega
      simp [numReprs2, hlt]
    · rw [dc_of_sub (by omega) (by omega)]
      rfl

/-- Every member of `minuteAlts` is a minute 0-59 preceded by one of its
admitted renderings. -/
theorem mem_minuteAlts {cs : List Char} {mr : Nat × List Char} (h : mr ∈ minuteAlts cs) :
    mr.1 ≤ 59 ∧ ∃ ms ∈ numReprs2 mr.1, cs = ms ++ mr.2 := by
  obtain ⟨m, rest⟩ := mr
  simp only [minuteAlts, List.mem_append, Option.mem_toList, Option.mem_def] at h
  have e0 : ('0' : Char).toNat = 48 := rfl
  have e5 : ('5' : Char).toNat = 53 := rfl
  have e9 : ('9' : Char).toNat = 57 := rfl
  rcases h with h | h
  · obtain ⟨c1, c2, rfl, hlo, hhi, hlo2, hhi2, rfl⟩ := rangeDigitAlt_sound h
    refine ⟨by omega,
      twoDigitChars ((c1.toNat - 48) * 10 + (c2.toNat - 48)), two_mem_numReprs2 _, ?_⟩
    unfold twoDigitChars
    have d1 : ((c1.toNat - 48) * 10 + (c2.toNat - 48)) / 10 = c1.toNat - 48 := by omega
    have d2 : ((c1.toNat - 48) * 10 + (c2.toNat - 48)) % 10 = c2.toNat - 48 := by omega
    rw [d1, d2, dc_of_sub (by omega) (by omega), dc_of_sub (by omega) (by omega)]
    rfl
  · obtain ⟨c, rfl, hlo, hhi, rfl⟩ := singleAlt_sound h
    refine ⟨by omega, [digitToChar (c.toNat - 48)], ?_, ?_⟩
    · have hlt : c.toNat - 48 < 10 := by omega
      simp [numReprs2, hlt]
    · rw [dc_of_sub (by omega) (by omega)]
      rfl

/-- Every member of `secondAlts` is a second 0-61 (the regex admits leap
seconds) preceded by one of its admitted renderings. -/
theorem mem_secondAlts {cs : List Char} {sr : Nat × List Char} (h : sr ∈ secondAlts cs) :
    sr.1 ≤ 61 ∧ ∃ ss ∈ numReprs2 sr.1, cs = ss ++ sr.2 := by
  obtain ⟨s, rest⟩ := sr
  simp only [secondAlts, List.mem_append, Option.mem_toList, Option.mem_def] at h
  have e0 : ('0' : Char).toNat = 48 := rfl
  have e1 : ('1' : Char).toNat = 49 := rfl
  have e5 : ('5' : Char).toNat = 53 := rfl
  have e6 : ('6' : Char).toNat = 54 := rfl
  have e9 : ('9' : Char).toNat = 57 := rfl
  rcases h with (h | h) | h
  · obtain ⟨c2, rfl, hlo, hhi, rfl⟩ := litRangeAlt_sound h
    refine ⟨by omega, twoDigitChars (60 + (c2.toNat - 48)), two_mem_numReprs2 _, ?_⟩
    unfold twoDigitChars
    have d1 : (60 + (c2.toNat - 48)) / 10 = 6 := by omega
    have d2 : (60 + (c2.toNat - 48)) % 10 = c2.toNat - 48 := by omega
    rw [d1, d2, dc_of_sub (by omega) (by omega)]
    rfl
  · obtain ⟨c1, c2, rfl, hlo, hhi, hlo2, hhi2, rfl⟩ := rangeDigitAlt_sound h
    refine ⟨by omega,
      twoDigitChars ((c1.toNat - 48) * 10 + (c2.toNat - 48)), two_mem_numReprs2 _, ?_⟩
    unfold twoDigitChars
    have d1 : ((c1.toNat - 48) * 10 + (c2.toNat - 48)) / 10 = c1.toNat - 48 := by omega
    have d2 : ((c1.toNat - 48) * 10 + (c2.toNat - 48)) % 10 = c2.toNat - 48 := by omega
    rw [d1, d2, dc_of_sub (by omega) (by omega), dc_of_sub (by omega) (by omega)]
    rfl
  · obtain ⟨c, rfl, hlo, hhi, rfl⟩ := singleAlt_sound h
    refine ⟨by omega, [digitToChar (c.toNat - 48)], ?_, ?_⟩
    · have hlt : c.toNat - 48 < 10 := by omega
      simp [numReprs2, hlt]
    · rw [dc_of_sub (by omega) (by omega)]
      rfl

/-- `monthAlts` on a one-digit rendering: the month is the first
alternative produced. -/
theorem monthAlts_single {m : Nat} (h1 : 1 ≤ m) (h2 : m ≤ 9) (t : List Char) :
    ∃ tl, monthAlts (digitToChar m :: '-' :: t) = (m, '-' :: t) :: tl := by
  interval_cases m <;> exact ⟨_, rfl⟩

/-- `monthAlts` on the two-digit rendering: the month is the first
alternative produced. -/
theorem monthAlts_two {m : Nat} (h1 : 1 ≤ m) (h2 : m ≤ 12) (t : List Char) :
    ∃ tl, monthAlts (twoDigitChars m ++ '-' :: t) = (m, '-' :: t) :: tl := by
  interval_cases m <;> exact ⟨_, rfl⟩

/-- `dayAlts` on a one-digit rendering at the end of the input. -/
theorem dayAlts_single {d : Nat} (h1 : 1 ≤ d) (h2 : d ≤ 9) :
    ∃ tl, dayAlts [digitToChar d] = (d, []) :: tl := by
  interval_cases d <;> exact ⟨_, rfl⟩

/-- `dayAlts` on the two-digit rendering at the end of the input. -/
theorem dayAlts_two {d : Nat} (h1 : 1 ≤ d) (h2 : d ≤ 31) :
    ∃ tl, dayAlts (twoDigitChars d) = (d, []) :: tl := by
  interval_cases d <;> exact ⟨_, rfl⟩

/-- `dayAlts` on the blank-padded rendering at the end of the input. -/
theorem dayAlts_space {d : Nat} (h1 : 1 ≤ d) (h2 : d ≤ 9) :
    ∃ tl, dayAlts [' ', digitToChar d] = (d, []) :: tl := by
  interval_cases d <;> exact ⟨_, rfl⟩

/-- `hourAlts` on a one-digit rendering. -/
theorem hourAlts_single {h : Nat} (h2 : h ≤ 9) (t : List Char) :
    ∃ tl, hourAlts (digitToChar h :: ':' :: t) = (h, ':' :: t) :: tl := by
  interval_cases h <;> exact ⟨_, rfl⟩

/-- `hourAlts` on the two-digit rendering. -/
theorem hourAlts_two {h : Nat} (h2 : h ≤ 23) (t : List Char) :
    ∃ tl, hourAlts (twoDigitChars h ++ ':' :: t) = (h, ':' :: t) :: tl := by
  interval_cases h <;> exact ⟨_, rfl⟩

/-- `minuteAlts` on a one-digit rendering. -/
theorem minuteAlts_single {m : Nat} (h2 : m ≤ 9) (t : List Char) :
    ∃ tl, minuteAlts (digitToChar m :: ':' :: t) = (m, ':' :: t) :: tl := by
  interval_cases m <;> exact ⟨_, rfl⟩

/-- `minuteAlts` on the two-digit rendering. -/
theorem minuteAlts_two {m : Nat} (h2 : m ≤ 59) (t : List Char) :
    ∃ tl, minuteAlts (twoDigitChars m ++ ':' :: t) = (m, ':' :: t) :: tl := by
  interval_cases m <;> exact ⟨_, rfl⟩

/-- `secondAlts` on a one-digit rendering at the end of the input. -/
theorem secondAlts_single {s : Nat} (h2 : s ≤ 9) :
    ∃ tl, secondAlts [digitToChar s] = (s, []) :: tl := by
  interval_cases s <;> exact ⟨_, rfl⟩

/-- `secondAlts` on the two-digit rendering at the end of the input. -/
theorem secondAlts_two {s : Nat} (h2 : s ≤ 59) :
    ∃ tl, secondAlts (twoDigitChars s) = (s, []) :: tl := by
  interval_cases s <;> exact ⟨_, rfl⟩

/-- Inverting `%Y-%m-%d` as a whole. -/
theorem regexYMD_sound {cs : List Char} {y m d : Nat} (h : regexYMD cs = some (y, m, d)) :
    y ≤ 9999 ∧ 1 ≤ m ∧ m ≤ 12 ∧ 1 ≤ d ∧ d ≤ 31 ∧
      ∃ ms ∈ numReprs2 m, ∃ ds ∈ dayReprs d,
        cs = fourDigitChars y ++ '-' :: (ms ++ '-' :: ds) := by
  unfold regexYMD at h
  split at h
  · rename_i y0 r1 hy
    split at h
    · rename_i r2
      obtain ⟨mr, hmm, hf⟩ := List.exists_of_findSome?_eq_some h
      split at hf
      · rename_i r3 heq3
        obtain ⟨dr, hdm, hfd⟩ := List.exists_of_findSome?_eq_some hf
        split at hfd
        · rename_i hnil
          injection hfd with h5
          injection h5 with hy0 h6
          injection h6 with hm hd
          subst hy0 hm hd
          obtain ⟨hy9, hcs⟩ := yearMatch_sound hy
          obtain ⟨hm1, hm2, ms, hms, hr2⟩ := mem_monthAlts hmm
          obtain ⟨hd1, hd2, ds, hds, hr3⟩ := mem_dayAlts hdm
          refine ⟨hy9, hm1, hm2, hd1, hd2, ms, hms, ds, hds, ?_⟩
          rw [hcs, hr2, heq3, hr3, hnil]
          simp
        · cases hfd
      · cases hf
    · cases h
  · cases h

/-- Computing `%Y-%m-%d` on an admitted rendering. -/
theorem regexYMD_complete {y m d : Nat} (hy : y ≤ 9999) {ms ds : List Char}
    (hm : ∃ tl, monthAlts (ms ++ '-' :: ds) = (m, '-' :: ds) :: tl)
    (hd : ∃ tl, dayAlts ds = (d, []) :: tl) :
    regexYMD (fourDigitChars y ++ '-' :: (ms ++ '-' :: ds)) = some (y, m, d) := by
  obtain ⟨tl1, hm⟩ := hm
  obtain ⟨tl2, hd⟩ := hd
  unfold regexYMD
  rw [yearMatch_complete hy]
  show (monthAlts (ms ++ '-' :: ds)).findSome? _ = _
  simp only [hm, List.findSome?_cons, hd]
  rfl

/-- Inverting `%H:%M:%S` as a whole. -/
theorem regexHMS_sound {cs : List Char} {h m s : Nat} (hr : regexHMS cs = some (h, m, s)) :
    h ≤ 23 ∧ m ≤ 59 ∧ s ≤ 61 ∧
      ∃ hs ∈ numReprs2 h, ∃ ms ∈ numReprs2 m, ∃ ss ∈ numReprs2 s,
        cs = hs ++ ':' :: (ms ++ ':' :: ss) := by
  unfold regexHMS at hr
  obtain ⟨hp, hhm, hf⟩ := List.exists_of_findSome?_eq_some hr
  split at hf
  · rename_i r2 heq2
    obtain ⟨mp, hmm, hf2⟩ := List.exists_of_findSome?_eq_some hf
    split at hf2
    · rename_i r3 heq3
      obtain ⟨sp, hsm, hf3⟩ := List.exists_of_findSome?_eq_some hf2
      split at hf3
      · rename_i hnil
        injection hf3 with h5
        injection h5 with hh h6
        injection h6 with hm2 hs2
        subst hh hm2 hs2
        obtain ⟨hb1, hs1, hr1⟩ := mem_hourAlts hhm
        obtain ⟨hb2, ms2, hr2⟩ := mem_minuteAlts hmm
        obtain ⟨hb3, ss3, hr3⟩ := mem_secondAlts hsm
        obtain ⟨hms1, hcs1⟩ := hr1
        obtain ⟨hms2, hcs2⟩ := hr2
        obtain ⟨hms3, hcs3⟩ := hr3
        refine ⟨hb1, hb2, hb3, hs1, hms1, ms2, hms2, ss3, hms3, ?_⟩
        rw [hcs1, heq2, hcs2, heq3, hcs3, hnil]
        simp
      · cases hf3
    · cases hf2
  · cases hf

/-- Computing `%H:%M:%S` on an admitted rendering. -/
theorem regexHMS_complete {h m s : Nat} {hs ms ss : List Char}
    (hh : ∃ tl, hourAlts (hs ++ ':' :: (ms ++ ':' :: ss)) =
      (h, ':' :: (ms ++ ':' :: ss)) :: tl)
    (hm : ∃ tl, minuteAlts (ms ++ ':' :: ss) = (m, ':' :: ss) :: tl)
    (hd : ∃ tl, secondAlts ss = (s, []) :: tl) :
    regexHMS (hs ++ ':' :: (ms ++ ':' :: ss)) = some (h, m, s) := by
  obtain ⟨t1, hh⟩ := hh
  obtain ⟨t2, hm⟩ := hm
  obtain ⟨t3, hd⟩ := hd
  unfold regexHMS
  simp only [hh, List.findSome?_cons, hm, hd]
  rfl

/-- No month has more than 31 days. -/
theorem daysInMonth_le31 (y m : Nat) : daysInMonth y m ≤ 31 := by
  unfold daysInMonth
  split
  · split <;> omega
  · split <;> omega

/-- What the spec accepts for a date string after the correction: an
exactly-four-digit year, a month and day in one of the renderings the
parser's regex admits, and a real calendar date. -/
def dateSpec (s : String) (dt : PyDate) : Prop :=
  1 ≤ dt.year ∧ dt.year ≤ 9999 ∧ 1 ≤ dt.month ∧ dt.month ≤ 12 ∧ 1 ≤ dt.day ∧
    dt.day ≤ daysInMonth dt.year dt.month ∧
    ∃ ms ∈ numReprs2 dt.month, ∃ ds ∈ dayReprs dt.day,
      s.data = fourDigitChars dt.year ++ '-' :: (ms ++ '-' :: ds)

/-- What the spec accepts for a time string after the correction. -/
def timeSpec (s : String) (t : PyTime) : Prop :=
  t.hour ≤ 23 ∧ t.minute ≤ 59 ∧ t.second ≤ 59 ∧
    ∃ hs ∈ numReprs2 t.hour, ∃ ms ∈ numReprs2 t.minute, ∃ ss ∈ numReprs2 t.second,
      s.data = hs ++ ':' :: (ms ++ ':' :: ss)

/-- The date parser accepts exactly the `dateSpec` strings, with the
specified value. -/
theorem strptimeDate_iff (s : String) (dt : PyDate) :
    strptimeDate s = some dt ↔ dateSpec s dt := by
  obtain ⟨y, m, d⟩ := dt
  constructor
  · intro h
    unfold strptimeDate at h
    split at h
    · rename_i y1 m1 d1 hr
      split at h
      · rename_i hvalid
        injection h with h2
        injection h2 with e1 e2 e3
        subst e1 e2 e3
        obtain ⟨hy9, hm1, hm2, hd1, hd31, ms, hms, ds, hds, hcs⟩ := regexYMD_sound hr
        exact ⟨hvalid.1, hy9, hm1, hm2, hd1, hvalid.2, ms, hms, ds, hds, hcs⟩
      · cases h
    · cases h
  · rintro ⟨h1, h2, h3, h4, h5, h6, ms, hms, ds, hds, hcs⟩
    dsimp only at h1 h2 h3 h4 h5 h6 hms hds hcs
    have hmAlt : ∃ tl, monthAlts (ms ++ '-' :: ds) = (m, '-' :: ds) :: tl := by
      unfold numReprs2 at hms
      split at hms
      · rcases (by simpa using hms : ms = [digitToChar m] ∨ ms = twoDigitChars m) with rfl | rfl
        · exact monthAlts_single h3 (by omega) ds
        · exact monthAlts_two h3 h4 ds
      · rw [show ms = twoDigitChars m by simpa using hms]
        exact monthAlts_two h3 h4 ds
    have hd31 : d ≤ 31 := le_trans h6 (daysInMonth_le31 y m)
    have hdAlt : ∃ tl, dayAlts ds = (d, []) :: tl := by
      unfold dayReprs at hds
      split at hds
      · rcases (by simpa using hds :
            ds = [digitToChar d] ∨ ds = twoDigitChars d ∨ ds = [' ', digitToChar d]) with
          rfl | rfl | rfl
        · exact dayAlts_single h5 (by omega)
        · exact dayAlts_two h5 hd31
        · exact dayAlts_space h5 (by omega)
      · rw [show ds = twoDigitChars d by simpa using hds]
        exact dayAlts_two h5 hd31
    unfold strptimeDate
    rw [hcs]
    simp only [regexYMD_complete h2 hmAlt hdAlt]
    rw [if_pos ⟨h1, h6⟩]

/-- The time parser accepts exactly the `timeSpec` strings, with the
specified value. -/
theorem strptimeTime_iff (s : String) (t : PyTime) :
    strptimeTime s = some t ↔ timeSpec s t := by
  obtain ⟨h, m, sec⟩ := t
  constructor
  · intro hp
    unfold strptimeTime at hp
    split at hp
    · rename_i h1 m1 s1 hr
      split at hp
      · rename_i hvalid
        injection hp with h2
        injection h2 with e1 e2 e3
        subst e1 e2 e3
        obtain ⟨hb1, hb2, hb3, hs, hhs, ms, hmss, ss, hsss, hcs⟩ := regexHMS_sound hr
        exact ⟨hb1, hb2, hvalid, hs, hhs, ms, hmss, ss, hsss, hcs⟩
      · cases hp
    · cases hp
  · rintro ⟨h1, h2, h3, hs, hhs, ms, hmss, ss, hsss, hcs⟩
    dsimp only at h1 h2 h3 hhs hmss hsss hcs
    have hhAlt : ∃ tl, hourAlts (hs ++ ':' :: (ms ++ ':' :: ss)) =
        (h, ':' :: (ms ++ ':' :: ss)) :: tl := by
      unfold numReprs2 at hhs
      split at hhs
      · rcases (by simpa using hhs : hs = [digitToChar h] ∨ hs = twoDigitChars h) with rfl | rfl
        · exact hourAlts_single (by omega) _
        · exact hourAlts_two h1 _
      · rw [show hs = twoDigitChars h by simpa using hhs]
        exact hourAlts_two h1 _
    have hmAlt : ∃ tl, minuteAlts (ms ++ ':' :: ss) = (m, ':' :: ss) :: tl := by
      unfold numReprs2 at hmss
      split at hmss
      · rcases (by simpa using hmss : ms = [digitToChar m] ∨ ms = twoDigitChars m) with
          rfl | rfl
        · exact minuteAlts_single (by omega) _
        · exact minuteAlts_two h2 _
      · rw [show ms = twoDigitChars m by simpa using hmss]
        exact minuteAlts_two h2 _
    have hsAlt : ∃ tl, secondAlts ss = (sec, []) :: tl := by
      unfold numReprs2 at hsss
      split at hsss
      · rcases (by simpa using hsss : ss = [digitToChar sec] ∨ ss = twoDigitChars sec) with
          rfl | rfl
        · exact secondAlts_single (by omega)
        · exact secondAlts_two h3
      · rw [show ss = twoDigitChars sec by simpa using hsss]
        exact secondAlts_two h3
    unfold strptimeTime
    rw [hcs]
    simp only [regexHMS_complete hhAlt hmAlt hsAlt]
    rw [if_pos h3]

/-- The literal `YYYY-MM-DD` pattern of the original claim: four digits,
dash, two digits, dash, two digits. -/
def matchesYYYYMMDD (s : String) : Bool :=
  match s.data with
  | [a, b, c, d, s1, e, f, s2, g, k] =>
      a.isDigit && b.isDigit && c.isDigit && d.isDigit && s1 = '-' && e.isDigit &&
        f.isDigit && s2 = '-' && g.isDigit && k.isDigit
  | _ => false

/-- The literal `HH:MM:SS` pattern of the original claim. -/
def matchesHHMMSS (s : String) : Bool :=
  match s.data with
  | [a, b, s1, c, d, s2, e, f] =>
      a.isDigit && b.isDigit && s1 = ':' && c.isDigit && d.isDigit && s2 = ':' &&
        e.isDigit && f.isDigit
  | _ => false

/-- C3 counterexample: the code accepts `"2024-3-5"` as an appointment date
and `"9:5:3"` as a time although neither matches the literal `YYYY-MM-DD` /
`HH:MM:SS` patterns, so "accepted if and only if it matches" fails. -/
theorem C3_date_time_validation_counterexample :
    strptimeDate "2024-3-5" = some ⟨2024, 3, 5⟩ ∧
    matchesYYYYMMDD "2024-3-5" = false ∧
    strptimeTime "9:5:3" = some ⟨9, 5, 3⟩ ∧
    matchesHHMMSS "9:5:3" = false ∧
    (create_appointment wStore
      [("client_id", Val.num 1), ("stylist_id", Val.num 1), ("service_id", Val.num 1),
        ("date", Val.str "2024-3-5"), ("time", Val.str "9:5:3")]).1.code = 201 := by
  refine ⟨by decide, by decide, by decide, by decide, by decide⟩

/-- C3 (amended): a date string is accepted exactly when it is a real
calendar date written as an exactly-four-digit year, a dash, a month with
optional zero padding, a dash, and a day with optional zero or blank
padding; a time string exactly when it is `H(H):M(M):S(S)` with hour at
most 23, minute and second at most 59, each with optional zero padding.  A
non-parsing date yields exactly the date error message, a parsing date with
a non-parsing time exactly the time error message, in both cases with
nothing persisted; when both parse, the appointment is stored with the
parsed values. -/
theorem C3_date_time_validation :
    (∀ s dt, strptimeDate s = some dt ↔ dateSpec s dt) ∧
    (∀ s t, strptimeTime s = some t ↔ timeSpec s t) ∧
    (∀ st d ds,
        validate_required_fields d ["client_id", "stylist_id", "service_id", "date", "time"] =
          none →
        Input.get0 d "date" = Val.str ds → strptimeDate ds = none →
        create_appointment st d = (errResp 400 "Invalid date format. Use YYYY-MM-DD", st)) ∧
    (∀ st d ds ts pd,
        validate_required_fields d ["client_id", "stylist_id", "service_id", "date", "time"] =
          none →
        Input.get0 d "date" = Val.str ds → strptimeDate ds = some pd →
        Input.get0 d "time" = Val.str ts → strptimeTime ts = none →
        create_appointment st d = (errResp 400 "Invalid time format. Use HH:MM:SS", st)) ∧
    (∀ st d ds ts pd pt,
        validate_required_fields d ["client_id", "stylist_id", "service_id", "date", "time"] =
          none →
        Input.get0 d "date" = Val.str ds → strptimeDate ds = some pd →
        Input.get0 d "time" = Val.str ts → strptimeTime ts = some pt →
        ∃ row : AppointmentRow,
          create_appointment st d =
            (⟨201, row.to_json⟩,
              { st with appointments := st.appointments ++ [row],
                        nextAppointmentId := st.nextAppointmentId + 1 }) ∧
          row.date = pd ∧ row.time = pt) := by
  refine ⟨strptimeDate_iff, strptimeTime_iff, ?_, ?_, ?_⟩
  · intro st d ds hreq hget hparse
    simp only [create_appointment, hreq, hget, hparse]
  · intro st d ds ts pd hreq hget hparse hget2 hparse2
    simp only [create_appointment, hreq, hget, hparse, hget2, hparse2]
  · intro st d ds ts pd pt hreq hget hparse hget2 hparse2
    simp only [create_appointment, hreq, hget, hparse, hget2, hparse2]
    exact ⟨_, rfl, rfl, rfl⟩

/-- C3 witness: concrete rejected and accepted appointment creations with
the exact error messages, and the characterization applied to a concrete
date and time. -/
theorem C3_date_time_validation_witness :
    (strptimeDate "2024-06-01" = some ⟨2024, 6, 1⟩ ↔ dateSpec "2024-06-01" ⟨2024, 6, 1⟩) ∧
    (strptimeTime "10:00:00" = some ⟨10, 0, 0⟩ ↔ timeSpec "10:00:00" ⟨10, 0, 0⟩) ∧
    create_appointment wStore
      [("client_id", Val.num 1), ("stylist_id", Val.num 1), ("service_id", Val.num 1),
        ("date", Val.str "15-03-2024"), ("time", Val.str "10:00:00")] =
      (errResp 400 "Invalid date format. Use YYYY-MM-DD", wStore) ∧
    create_appointment wStore
      [("client_id", Val.num 1), ("stylist_id", Val.num 1), ("service_id", Val.num 1),
        ("date", Val.str "2024-03-15"), ("time", Val.str "2:30 PM")] =
      (errResp 400 "Invalid time format. Use HH:MM:SS", wStore) ∧
    (∃ row : AppointmentRow,
        create_appointment wStore
          [("client_id", Val.num 1), ("stylist_id", Val.num 1), ("service_id", Val.num 1),
            ("date", Val.str "2024-03-15"), ("time", Val.str "14:30:00")] =
          (⟨201, row.to_json⟩,
            { wStore with appointments := wStore.appointments ++ [row],
                          nextAppointmentId := wStore.nextAppointmentId + 1 }) ∧
        row.date = ⟨2024, 3, 15⟩ ∧ row.time = ⟨14, 30, 0⟩) := by
  obtain ⟨h1, h2, h3, h4, h5⟩ := C3_date_time_validation
  exact ⟨h1 "2024-06-01" ⟨2024, 6, 1⟩, h2 "10:00:00" ⟨10, 0, 0⟩,
    h3 wStore _ "15-03-2024" (by decide) (by decide) (by decide),
    h4 wStore _ "2024-03-15" "2:30 PM" ⟨2024, 3, 15⟩ (by decide) (by decide) (by decide)
      (by decide) (by decide),
    h5 wStore _ "2024-03-15" "14:30:00" ⟨2024, 3, 15⟩ ⟨14, 30, 0⟩ (by decide) (by decide)
      (by decide) (by decide) (by decide)⟩

end HairSalon
